import Mathlib

/-!
Shallow embedding of the examma-ray randomized exam assignment engine.

The definitions below are translated from the repository's source:
`src/ExamGenerator.ts` (the `ExamGenerator` class: option verification,
per-student randomized exam assignment, and the consistency checker) and
`src/ExamUtils.ts` (`createStudentUuid`, roster loading, and exam
specification save/load with the regular-expression tagging convention).

Conventions of the embedding:
- TypeScript exceptions thrown by `assert` become the `Except String`
  monad: a throwing run is `Except.error msg`, a completing run is
  `Except.ok`.
- JavaScript objects used as string-keyed maps become association lists
  where assignment conses a (possibly shadowing) entry; lookup takes the
  first match, so the observable get/set behavior matches.
- Reference identity of specification objects (the `===` checks of the
  consistency checker) is represented by a numeric identity token `spec`
  carried by each `Section` / `Question`.
- Parts of the engine that live in repository modules outside the provided
  sources (the seeded randomizer, choosers, skin compositor, the
  `AssignedExam` tree and its derived point total, and the external `uuid`
  library) are modelled from the specification; each such definition says
  so in its doc comment.
-/

/-- Representation of the TypeScript `assert(condition, message)` helper from
`src/core/util`: a failed assertion throws, which the embedding represents as
`Except.error`. -/
def assert (b : Bool) (msg : String) : Except String Unit :=
  if b then Except.ok () else Except.error msg

/-- Strategy for creating per-student uuids, from `src/ExamGenerator.ts`
(`export type UUID_Strategy = "plain" | "uuidv4" | "uuidv5"`). -/
inductive UUIDStrategy where
  | plain
  | uuidv4
  | uuidv5
deriving DecidableEq, Repr

/-- Student roster entry (`StudentInfo` from `src/core/exam_specification`):
a uniqname and a display name. -/
structure StudentInfo where
  uniqname : String
  name : String
deriving DecidableEq, Repr

/-- Fully-populated generator options (`ExamGeneratorOptions` from
`src/ExamGenerator.ts`). `uuidv5_namespace` stays optional because
`DEFAULT_OPTIONS` provides no default for it; the boolean flags that
`DEFAULT_OPTIONS` omits (`choose_all`, `consistent_randomization`) collapse
JavaScript undefined-truthiness into `false`. -/
structure ExamGeneratorOptions where
  frontend_js_path : String
  frontend_media_dir : String
  uuid_strategy : UUIDStrategy
  uuidv5_namespace : Option String
  choose_all : Bool
  allow_duplicates : Bool
  consistent_randomization : Bool
deriving DecidableEq, Repr

/-- Options as passed to the `ExamGenerator` constructor
(`Partial<ExamGeneratorOptions>`): every field may be absent. -/
structure OptionsInput where
  frontend_js_path : Option String := none
  frontend_media_dir : Option String := none
  uuid_strategy : Option UUIDStrategy := none
  uuidv5_namespace : Option String := none
  choose_all : Option Bool := none
  allow_duplicates : Option Bool := none
  consistent_randomization : Option Bool := none
deriving DecidableEq, Repr

/-- JavaScript truthiness of an optional string: `undefined` and the empty
string are falsy. -/
def strTruthy : Option String → Bool
  | none => false
  | some s => s ≠ ""

def uuidv5NamespaceMissingMsg : String :=
  "If uuidv5 filenames are selected, a uuidv5_namespace option must be specified."

def uuidv5NamespaceShortMsg : String :=
  "uuidv5 namespace must be at least 16 characters."

/-- Translation of `verifyOptions` from `src/ExamGenerator.ts`:
`assert(options.uuid_strategy !== "uuidv5" || options.uuidv5_namespace, ...)`
followed by
`assert(!options.uuidv5_namespace || options.uuidv5_namespace.length >= 16, ...)`. -/
def verifyOptions (options : OptionsInput) : Except String Unit := do
  assert (options.uuid_strategy != some UUIDStrategy.uuidv5 || strTruthy options.uuidv5_namespace)
    uuidv5NamespaceMissingMsg
  assert (!strTruthy options.uuidv5_namespace ||
      decide ((options.uuidv5_namespace.getD "").length ≥ 16))
    uuidv5NamespaceShortMsg

/-- Result of `Object.assign({}, DEFAULT_OPTIONS, options)` in the
`ExamGenerator` constructor, with `DEFAULT_OPTIONS` from
`src/ExamGenerator.ts`. -/
def mergeOptions (options : OptionsInput) : ExamGeneratorOptions where
  frontend_js_path := options.frontend_js_path.getD "js/frontend.js"
  frontend_media_dir := options.frontend_media_dir.getD "media"
  uuid_strategy := options.uuid_strategy.getD UUIDStrategy.plain
  uuidv5_namespace := options.uuidv5_namespace
  choose_all := options.choose_all.getD false
  allow_duplicates := options.allow_duplicates.getD false
  consistent_randomization := options.consistent_randomization.getD false

/-! SHA-1 and uuidv5, modelled from the external `uuid` npm library used by
`createStudentUuid` in `src/ExamUtils.ts`. The v5 algorithm follows RFC 4122:
the uuid is the SHA-1 hash of the namespace bytes followed by the UTF-8 bytes
of the name, truncated to 16 bytes with the version and variant bits set. The
namespace string is converted to bytes by scanning it for hexadecimal digit
pairs, as the library's `uuidToBytes` does. -/

/-- Modular 32-bit left rotation over `Nat`; the argument is kept below
`2 ^ 32`. -/
def rotl32 (x n : Nat) : Nat :=
  ((x <<< n) % 4294967296) ||| (x >>> (32 - n))

/-- Big-endian byte decomposition of `v` into `n` bytes. -/
def toBytesBE (n v : Nat) : List Nat :=
  (List.range n).map (fun i => (v >>> (8 * (n - 1 - i))) % 256)

/-- SHA-1 message padding: append the 0x80 marker, zero bytes up to 56 mod 64,
then the 8-byte big-endian bit length. -/
def sha1Pad (msg : List Nat) : List Nat :=
  let len := msg.length
  msg ++ [128] ++ List.replicate ((119 - len % 64) % 64) 0 ++ toBytesBE 8 (len * 8)

/-- Combine 4 consecutive bytes into big-endian 32-bit words. -/
def wordsOfBytes (bs : List Nat) : List Nat :=
  (List.toChunks 4 bs).map (fun c => c.foldl (fun a b => a * 256 + b) 0)

/-- SHA-1 message schedule: extend 16 words to 80 words. -/
def sha1Extend (ws : List Nat) : List Nat :=
  (List.range 64).foldl
    (fun acc _ =>
      let n := acc.length
      acc ++ [rotl32 ((acc.getD (n - 3) 0) ^^^ (acc.getD (n - 8) 0) ^^^
                      (acc.getD (n - 14) 0) ^^^ (acc.getD (n - 16) 0)) 1])
    ws

/-- Round function and constant for SHA-1 round `i`. -/
def sha1FK (i b c d : Nat) : Nat × Nat :=
  if i < 20 then ((b &&& c) ||| ((b ^^^ 4294967295) &&& d), 1518500249)
  else if i < 40 then (b ^^^ c ^^^ d, 1859775393)
  else if i < 60 then ((b &&& c) ||| (b &&& d) ||| (c &&& d), 2400959708)
  else (b ^^^ c ^^^ d, 3395469782)

/-- SHA-1 compression of one 64-byte chunk into the running hash state. -/
def sha1Compress (h : Nat × Nat × Nat × Nat × Nat) (chunk : List Nat) :
    Nat × Nat × Nat × Nat × Nat :=
  let w := sha1Extend (wordsOfBytes chunk)
  let (h0, h1, h2, h3, h4) := h
  let st := (List.range 80).foldl
    (fun st i =>
      let (a, b, c, d, e) := st
      let (f, k) := sha1FK i b c d
      ((rotl32 a 5 + f + e + k + w.getD i 0) % 4294967296, a, rotl32 b 30, c, d))
    (h0, h1, h2, h3, h4)
  let (a, b, c, d, e) := st
  ((h0 + a) % 4294967296, (h1 + b) % 4294967296, (h2 + c) % 4294967296,
   (h3 + d) % 4294967296, (h4 + e) % 4294967296)

/-- SHA-1 of a byte list, as a list of 20 bytes. -/
def sha1 (msg : List Nat) : List Nat :=
  let (h0, h1, h2, h3, h4) :=
    (List.toChunks 64 (sha1Pad msg)).foldl sha1Compress
      (1732584193, 4023233417, 2562383102, 271733878, 3285377520)
  toBytesBE 4 h0 ++ toBytesBE 4 h1 ++ toBytesBE 4 h2 ++ toBytesBE 4 h3 ++ toBytesBE 4 h4

/-- UTF-8 encoding of one character. -/
def utf8EncodeChar (c : Char) : List Nat :=
  let n := c.toNat
  if n < 128 then [n]
  else if n < 2048 then [192 ||| (n >>> 6), 128 ||| (n &&& 63)]
  else if n < 65536 then
    [224 ||| (n >>> 12), 128 ||| ((n >>> 6) &&& 63), 128 ||| (n &&& 63)]
  else
    [240 ||| (n >>> 18), 128 ||| ((n >>> 12) &&& 63),
     128 ||| ((n >>> 6) &&& 63), 128 ||| (n &&& 63)]

/-- UTF-8 bytes of a string. -/
def utf8Bytes (s : String) : List Nat :=
  s.data.flatMap utf8EncodeChar

/-- Value of a hexadecimal digit character, if it is one (the namespace scan
accepts 0-9, a-f and A-F, as the regex `[a-fA-F0-9]` does). -/
def hexVal (c : Char) : Option Nat :=
  let n := c.toNat
  if 48 ≤ n ∧ n ≤ 57 then some (n - 48)
  else if 97 ≤ n ∧ n ≤ 102 then some (n - 87)
  else if 65 ≤ n ∧ n ≤ 70 then some (n - 55)
  else none

/-- The `uuid` library's `uuidToBytes`: scan the namespace string left to
right for non-overlapping pairs of hexadecimal digits, turning each pair into
one byte (other characters, such as dashes, are skipped). -/
def hexPairBytes : List Char → List Nat
  | [] => []
  | [_] => []
  | c1 :: c2 :: rest =>
    match hexVal c1, hexVal c2 with
    | some h1, some h2 => (16 * h1 + h2) :: hexPairBytes rest
    | _, _ => hexPairBytes (c2 :: rest)

/-- Lowercase hexadecimal digit for a value below 16. -/
def hexDigit (n : Nat) : Char :=
  if n < 10 then Char.ofNat (48 + n) else Char.ofNat (87 + n)

/-- Two-digit lowercase hexadecimal rendering of a byte. -/
def byteToHex (n : Nat) : String :=
  String.mk [hexDigit (n / 16), hexDigit (n % 16)]

/-- Hexadecimal rendering of a list of bytes. -/
def bytesToHex (bs : List Nat) : String :=
  (bs.map byteToHex).foldl (fun a b => a ++ b) ""

/-- Standard 8-4-4-4-12 rendering of 16 uuid bytes. -/
def bytesToUuidString (b : List Nat) : String :=
  bytesToHex (b.take 4) ++ "-" ++ bytesToHex ((b.drop 4).take 2) ++ "-" ++
  bytesToHex ((b.drop 6).take 2) ++ "-" ++ bytesToHex ((b.drop 8).take 2) ++ "-" ++
  bytesToHex (b.drop 10)

/-- RFC 4122 version-5 uuid of `name` in namespace `ns`, as produced by the
`uuid` library's `v5(name, namespace)`. -/
def uuidv5 (name ns : String) : String :=
  let bytes := (sha1 (hexPairBytes ns.data ++ utf8Bytes name)).take 16
  let bytes := bytes.set 6 (((bytes.getD 6 0) &&& 15) ||| 80)
  let bytes := bytes.set 8 (((bytes.getD 8 0) &&& 63) ||| 128)
  bytesToUuidString bytes

/-- Placeholder for the `uuid` library's `v4()`: a version-4 uuid is random
and non-reproducible, which a pure embedding cannot express; no claim in this
development depends on the `uuidv4` strategy, only on the fact that the other
strategies never take this branch. -/
def uuidv4Value : String := "00000000-0000-4000-8000-000000000000"

/-- Translation of `createStudentUuid` from `src/ExamUtils.ts`: under
`"plain"` the uuid is `uniqname + "-" + id`; under `"uuidv4"` it is a fresh
random uuid; under `"uuidv5"` the source first runs
`assert(options.uuidv5_namespace)` and then hashes `uniqname + "-" + id` in
the configured namespace. The thrown assertion is an `Except.error`. -/
def createStudentUuid (options : ExamGeneratorOptions) (student : StudentInfo)
    (id : String) : Except String String :=
  match options.uuid_strategy with
  | UUIDStrategy.plain => Except.ok (student.uniqname ++ "-" ++ id)
  | UUIDStrategy.uuidv4 => Except.ok uuidv4Value
  | UUIDStrategy.uuidv5 => do
    assert (strTruthy options.uuidv5_namespace) ("Assertion failed.")
    Except.ok (uuidv5 (student.uniqname ++ "-" ++ id) (options.uuidv5_namespace.getD ""))

/-! The selection machinery. The chooser and randomizer implementations live
in repository modules (`src/core/randomization`, `src/core/exam_specification`)
that are not among the provided sources, so they are modelled from the
specification here; the generator code that drives them is translated from
`src/ExamGenerator.ts` below. -/

/-- Modelled from the spec: a Chooser is a policy object selecting a subset
of a pool — fixed single item, all items, a seeded choice of N, or a weighted
seeded choice (spec 4.2). -/
inductive Chooser (α : Type) where
  | fixed (item : α)
  | chooseAll (pool : List α)
  | chooseN (pool : List α) (n : Nat)
  | weighted (pool : List (α × Nat)) (n : Nat)
deriving DecidableEq, Repr

/-- Modelled from the spec: the Seeded Randomizer is a deterministic
pseudo-random selection primitive keyed by a seed string (spec 4.1); the
`chooseAll` variant is the `CHOOSE_ALL` identity-selection mode used when the
generator's `choose_all` option is set. The `tag` records which
`create*Randomizer` factory produced it, so that nested choices within one
student's build draw from distinct but reproducible streams. -/
inductive Randomizer where
  | chooseAll
  | seeded (seed : String) (tag : String)
deriving DecidableEq, Repr

/-- Deterministic hash of a seed string, the key of the pseudo-random stream.
Any fixed function works for the spec's contract (same seed, same result). -/
def seedHash (s : String) : Nat :=
  s.data.foldl (fun a c => (a * 31 + c.toNat) % 1000000007) 7

def selectionRangeMsg : String :=
  "Error: a chooser requested more items than its pool provides."

/-- Modelled from the spec: seeded sampling of `n` items from a pool.
Requesting more than the pool holds is a fatal selection-range error
(spec 4.1); the `CHOOSE_ALL` randomizer returns the whole pool. -/
def chooseFrom {α : Type} (pool : List α) (n : Nat) (r : Randomizer) :
    Except String (List α) :=
  match r with
  | Randomizer.chooseAll => Except.ok pool
  | Randomizer.seeded seed tag =>
    if n ≤ pool.length then
      Except.ok ((pool.rotate (seedHash (seed ++ tag))).take n)
    else Except.error selectionRangeMsg

/-- Modelled from the spec: the `choose` capability of a chooser (spec 4.2).
A fixed chooser returns its single wrapped item and ignores the randomizer. -/
def Chooser.choose {α : Type} (c : Chooser α) (r : Randomizer) :
    Except String (List α) :=
  match c with
  | Chooser.fixed item => Except.ok [item]
  | Chooser.chooseAll pool => Except.ok pool
  | Chooser.chooseN pool n => chooseFrom pool n r
  | Chooser.weighted pool n => chooseFrom (pool.map Prod.fst) n r

/-- Modelled from the spec: a leaf skin is a replacement mapping used to
parameterize rendered content (spec 3, `Skin`). -/
structure ExamComponentSkin where
  skin_id : String
  replacements : List (String × String)
deriving DecidableEq, Repr

/-- Modelled from the spec: a component's skin is either a concrete leaf skin
or a chooser over leaf skins; the source discriminates via
`skin.component_kind === "chooser"`. -/
inductive SkinOrChooser where
  | leaf (skin : ExamComponentSkin)
  | chooser (c : Chooser ExamComponentSkin)
deriving DecidableEq, Repr

/-- Modelled from the spec: a question specification node with stable id, a
point value, an identity token for its originating specification object, and
a skin (spec 3). -/
structure Question where
  question_id : String
  pointsPossible : Nat
  spec : Nat
  skin : SkinOrChooser
deriving DecidableEq, Repr

/-- Modelled from the spec: a section specification node with stable id,
specification identity token, a skin, and an ordered list of question
choosers (spec 3). -/
structure Section where
  section_id : String
  spec : Nat
  skin : SkinOrChooser
  questions : List (Chooser Question)
deriving DecidableEq, Repr

/-- Modelled from the spec: an exam specification with its id and ordered
list of section choosers (spec 3). -/
structure Exam where
  exam_id : String
  sections : List (Chooser Section)
deriving DecidableEq, Repr

/-- Modelled from the spec: factory for the randomizer used to choose
sections for one student (`createSectionChoiceRandomizer` in
`src/core/randomization`). -/
def createSectionChoiceRandomizer (seed : String) (exam : Exam) : Randomizer :=
  Randomizer.seeded seed ("-sections-" ++ exam.exam_id)

/-- Modelled from the spec: factory for the randomizer used to choose the
questions of one section (`createQuestionChoiceRandomizer`). -/
def createQuestionChoiceRandomizer (seed : String) (exam : Exam) (sec : Section) :
    Randomizer :=
  Randomizer.seeded seed ("-questions-" ++ exam.exam_id ++ "-" ++ sec.section_id)

/-- Modelled from the spec: factory for the randomizer used to choose a
section's skin (`createSectionSkinRandomizer`). -/
def createSectionSkinRandomizer (seed : String) (exam : Exam) (sec : Section) :
    Randomizer :=
  Randomizer.seeded seed ("-section-skin-" ++ exam.exam_id ++ "-" ++ sec.section_id)

/-- Modelled from the spec: factory for the randomizer used to choose a
question's skin (`createQuestionSkinRandomizer`). -/
def createQuestionSkinRandomizer (seed : String) (exam : Exam) (q : Question) :
    Randomizer :=
  Randomizer.seeded seed ("-question-skin-" ++ exam.exam_id ++ "-" ++ q.question_id)

/-- Modelled from the spec: `chooseSections` from
`src/core/exam_specification` runs one section chooser; the selection is
determined by the chooser and the randomizer (spec 4.2). -/
def chooseSections (c : Chooser Section) (_exam : Exam) (_student : StudentInfo)
    (r : Randomizer) : Except String (List Section) :=
  c.choose r

/-- Modelled from the spec: `chooseQuestions` from
`src/core/exam_specification`, the question-level analogue. -/
def chooseQuestions (c : Chooser Question) (_exam : Exam) (_student : StudentInfo)
    (r : Randomizer) : Except String (List Question) :=
  c.choose r

/-- Modelled from the spec: `createCompositeSkin` from `src/core/skins` does a
key-wise merge of the section skin and the question skin (spec 4.3); lookup
order gives the section side precedence, one of the two precedence readings
the spec leaves open. No claim depends on the merge contents. -/
def createCompositeSkin (sectionSkin qSkin : ExamComponentSkin) : ExamComponentSkin where
  skin_id := sectionSkin.skin_id ++ "-" ++ qSkin.skin_id
  replacements := sectionSkin.replacements ++ qSkin.replacements

/-- Modelled from the spec: an assigned question instance (spec 3,
`AssignedQuestion`), constructed in `createRandomizedQuestion` with the
argument list `(uuid, exam, student, question, skin, sectionIndex, partIndex,
"")`. -/
structure AssignedQuestion where
  uuid : String
  exam : Exam
  student : StudentInfo
  question : Question
  skin : ExamComponentSkin
  sectionIndex : Nat
  partIndex : Nat
  submission : String
deriving DecidableEq, Repr

/-- Modelled from the spec: an assigned section instance (spec 3,
`AssignedSection`); the `section` field of the source is written `section_`
because `section` is a Lean keyword. -/
structure AssignedSection where
  uuid : String
  section_ : Section
  sectionIndex : Nat
  skin : ExamComponentSkin
  assignedQuestions : List AssignedQuestion
deriving DecidableEq, Repr

/-- Modelled from the spec: the per-student assigned exam tree (spec 3,
`AssignedExam`). -/
structure AssignedExam where
  uuid : String
  exam : Exam
  student : StudentInfo
  assignedSections : List AssignedSection
  allow_duplicates : Bool
deriving DecidableEq, Repr

/-- Modelled from the spec: a section's contribution to the exam's point
total. -/
def AssignedSection.pointsPossible (s : AssignedSection) : Nat :=
  (s.assignedQuestions.map (fun q => q.question.pointsPossible)).sum

/-- Modelled from the spec: `pointsPossible` of an assigned exam is the sum
over all assigned questions' point values (spec 4.4 step 4). -/
def AssignedExam.pointsPossible (ae : AssignedExam) : Nat :=
  (ae.assignedSections.map AssignedSection.pointsPossible).sum

/-- Translation of `ExamGenerator.makeSeed`: the constant seed `"common"`
when `consistent_randomization` is set, else the student's uniqname. -/
def makeSeed (options : ExamGeneratorOptions) (student : StudentInfo) : String :=
  if options.consistent_randomization then "common" else student.uniqname

def sectionSkinAssertMsg : String :=
  "Generating multiple skins per section is only allowed if an exam allows duplicate sections."

def questionSkinAssertMsg : String :=
  "Generating multiple skins per question is only allowed if an exam allows duplicate sections."

def pointsMismatchMsg : String :=
  "Error: Inconsistent total point values."

def sectionDriftMsg : String :=
  "Multiple sections from different specifications with the same ID were detected."

def questionDriftMsg : String :=
  "Multiple questions from different specifications with the same ID were detected."

/-- The section skins selected in `ExamGenerator.createRandomizedSection`:
`section.skin.component_kind === "chooser" ? section.skin.choose(this.exam,
student, skinRand) : [section.skin]`, with `skinRand` the `choose_all`
override or the section-skin randomizer seeded by `makeSeed`. -/
def sectionSkinsOf (options : ExamGeneratorOptions) (exam : Exam) (sec : Section)
    (student : StudentInfo) : Except String (List ExamComponentSkin) :=
  let skinRand := if options.choose_all then Randomizer.chooseAll
                  else createSectionSkinRandomizer (makeSeed options student) exam sec
  match sec.skin with
  | SkinOrChooser.chooser c => c.choose skinRand
  | SkinOrChooser.leaf sk => Except.ok [sk]

/-- The composite question skins computed in
`ExamGenerator.createRandomizedQuestion`: the question's own skins (chooser
result or the single leaf) mapped through `createCompositeSkin(sectionSkin,
qSkin)`. -/
def questionSkinsOf (options : ExamGeneratorOptions) (exam : Exam) (question : Question)
    (student : StudentInfo) (sectionSkin : ExamComponentSkin) :
    Except String (List ExamComponentSkin) :=
  let rand := if options.choose_all then Randomizer.chooseAll
              else createQuestionSkinRandomizer (makeSeed options student) exam question
  (match question.skin with
   | SkinOrChooser.chooser c => c.choose rand
   | SkinOrChooser.leaf sk => Except.ok [sk]).map
    (List.map (createCompositeSkin sectionSkin))

/-- Translation of `ExamGenerator.createRandomizedQuestion`: choose the
question skins, assert the multiplicity policy, and build one
`AssignedQuestion` per composite skin; each instance gets its uuid from
`createStudentUuid` with id `exam_id + "-q-" + question_id`. -/
def createRandomizedQuestion (options : ExamGeneratorOptions) (exam : Exam)
    (question : Question) (student : StudentInfo) (sectionIndex partIndex : Nat)
    (sectionSkin : ExamComponentSkin) : Except String (List AssignedQuestion) := do
  let questionSkins ← questionSkinsOf options exam question student sectionSkin
  assert (options.allow_duplicates || questionSkins.length == 1) questionSkinAssertMsg
  questionSkins.mapM (fun questionSkin => do
    let uuid ← createStudentUuid options student (exam.exam_id ++ "-q-" ++ question.question_id)
    Except.ok { uuid := uuid, exam := exam, student := student, question := question,
                skin := questionSkin, sectionIndex := sectionIndex,
                partIndex := partIndex, submission := "" })

/-- Translation of `ExamGenerator.createRandomizedSection`: choose the
section skins, assert the multiplicity policy, and per section skin build an
`AssignedSection` whose uuid uses id `exam_id + "-s-" + section_id` and whose
questions come from flat-mapping the section's question choosers and then
`createRandomizedQuestion` with the position in the chosen list as
`partIndex`. -/
def createRandomizedSection (options : ExamGeneratorOptions) (exam : Exam)
    (sec : Section) (student : StudentInfo) (sectionIndex : Nat) :
    Except String (List AssignedSection) := do
  let rand := if options.choose_all then Randomizer.chooseAll
              else createQuestionChoiceRandomizer (makeSeed options student) exam sec
  let sectionSkins ← sectionSkinsOf options exam sec student
  assert (options.allow_duplicates || sectionSkins.length == 1) sectionSkinAssertMsg
  sectionSkins.mapM (fun sectionSkin => do
    let uuid ← createStudentUuid options student (exam.exam_id ++ "-s-" ++ sec.section_id)
    let chosenLists ← sec.questions.mapM (fun chooser => chooseQuestions chooser exam student rand)
    let aqLists ← chosenLists.flatten.enum.mapM (fun p =>
      createRandomizedQuestion options exam p.2 student sectionIndex p.1 sectionSkin)
    Except.ok { uuid := uuid, section_ := sec, sectionIndex := sectionIndex,
                skin := sectionSkin, assignedQuestions := aqLists.flatten })

/-- Per-section-id entry of the consistency checker's running table: the
representative specification node first seen under that id, and a use count. -/
structure SectionStats where
  section_ : Section
  n : Nat
deriving DecidableEq, Repr

/-- Per-question-id entry of the consistency checker's running table. -/
structure QuestionStats where
  question : Question
  n : Nat
deriving DecidableEq, Repr

/-- Mutable state of one `ExamGenerator` instance: the accumulated assigned
exams and the string-keyed maps of the consistency checker
(`assignedExams`, `assignedExamsByUniqname`, `sectionsMap`, `questionsMap`,
`sectionStatsMap`, `questionStatsMap` in `src/ExamGenerator.ts`). -/
structure GenState where
  assignedExams : List AssignedExam := []
  assignedExamsByUniqname : List (String × AssignedExam) := []
  sectionsMap : List (String × Section) := []
  questionsMap : List (String × Question) := []
  sectionStatsMap : List (String × SectionStats) := []
  questionStatsMap : List (String × QuestionStats) := []
deriving DecidableEq, Repr

/-- Lookup in a JavaScript-object-as-map: first matching entry. -/
def mapGet {α : Type} (m : List (String × α)) (k : String) : Option α :=
  (m.find? (fun p => p.1 == k)).map (fun p => p.2)

/-- Assignment in a JavaScript-object-as-map: cons a shadowing entry. -/
def mapSet {α : Type} (m : List (String × α)) (k : String) (v : α) :
    List (String × α) :=
  (k, v) :: m

/-- One step of the section pass of `ExamGenerator.checkExam`: if the id has
an entry, bump its count and assert the new node's `spec` is the identical
specification object as the representative's; else insert the node as the
representative with count 1. -/
def checkSectionStatsStep (m : List (String × SectionStats)) (s : Section) :
    Except String (List (String × SectionStats)) :=
  match mapGet m s.section_id with
  | some entry => do
    assert (s.spec == entry.section_.spec) sectionDriftMsg
    Except.ok (mapSet m s.section_id { entry with n := entry.n + 1 })
  | none => Except.ok (mapSet m s.section_id { section_ := s, n := 1 })

/-- One step of the question pass of `ExamGenerator.checkExam`. -/
def checkQuestionStatsStep (m : List (String × QuestionStats)) (q : Question) :
    Except String (List (String × QuestionStats)) :=
  match mapGet m q.question_id with
  | some entry => do
    assert (q.spec == entry.question.spec) questionDriftMsg
    Except.ok (mapSet m q.question_id { entry with n := entry.n + 1 })
  | none => Except.ok (mapSet m q.question_id { question := q, n := 1 })

/-- Translation of `ExamGenerator.checkExam`: record every assigned section
and question of this exam and verify that any node sharing an id with a
previously seen node originated from the identical specification object. -/
def checkExam (st : GenState) (ae : AssignedExam) : Except String GenState := do
  let sections := ae.assignedSections.map (fun s => s.section_)
  let questions := ae.assignedSections.flatMap
    (fun s => s.assignedQuestions.map (fun q => q.question))
  let sstats ← sections.foldlM checkSectionStatsStep st.sectionStatsMap
  let qstats ← questions.foldlM checkQuestionStatsStep st.questionStatsMap
  Except.ok { st with
    sectionsMap := sections.foldl (fun m s => mapSet m s.section_id s) st.sectionsMap,
    questionsMap := questions.foldl (fun m q => mapSet m q.question_id q) st.questionsMap,
    sectionStatsMap := sstats,
    questionStatsMap := qstats }

/-- Translation of `ExamGenerator.createRandomizedExam`: build the
`AssignedExam` from the student's uuid, the sections chosen by flat-mapping
the exam's section choosers with the student-seeded (or `choose_all`)
randomizer, and the per-section assignment; then run `checkExam`. The
generator's mutable maps are threaded explicitly as `GenState`. -/
def createRandomizedExam (options : ExamGeneratorOptions) (exam : Exam)
    (student : StudentInfo) (st : GenState) :
    Except String (AssignedExam × GenState) := do
  let rand := if options.choose_all then Randomizer.chooseAll
              else createSectionChoiceRandomizer (makeSeed options student) exam
  let uuid ← createStudentUuid options student exam.exam_id
  let chosenLists ← exam.sections.mapM (fun chooser => chooseSections chooser exam student rand)
  let asLists ← chosenLists.flatten.enum.mapM (fun p =>
    createRandomizedSection options exam p.2 student p.1)
  let ae : AssignedExam := { uuid := uuid, exam := exam, student := student,
                             assignedSections := asLists.flatten,
                             allow_duplicates := options.allow_duplicates }
  let st' ← checkExam st ae
  Except.ok (ae, st')

/-- Translation of `ExamGenerator.assignExam`: create the randomized exam,
push it onto `assignedExams` (and the by-uniqname map), then assert its
`pointsPossible` equals `assignedExams[0].pointsPossible` — indexing the list
after the push, so the first student trivially passes and every later student
is compared against the first. -/
def assignExam (options : ExamGeneratorOptions) (exam : Exam) (st : GenState)
    (student : StudentInfo) : Except String GenState := do
  let (ae, st1) ← createRandomizedExam options exam student st
  let exams := st1.assignedExams ++ [ae]
  let first := match exams with
    | [] => ae
    | f :: _ => f
  assert (ae.pointsPossible == first.pointsPossible) pointsMismatchMsg
  Except.ok { st1 with
    assignedExams := exams,
    assignedExamsByUniqname := mapSet st1.assignedExamsByUniqname student.uniqname ae }

/-- Translation of `ExamGenerator.assignExams`: assign every student of the
roster in order, starting from the freshly constructed generator's empty
state; the first thrown assertion aborts the run. -/
def assignExams (options : ExamGeneratorOptions) (exam : Exam)
    (students : List StudentInfo) : Except String GenState :=
  students.foldlM (assignExam options exam) {}

/-- Translation of the `ExamGenerator` constructor: it stores the exam, runs
`verifyOptions` on the raw options — so a configuration error is raised
before any student is processed — and merges in the defaults. -/
structure ExamGenerator where
  exam : Exam
  options : ExamGeneratorOptions
deriving DecidableEq, Repr

/-- Constructor function for `ExamGenerator` (see above). -/
def mkExamGenerator (exam : Exam) (options : OptionsInput) :
    Except String ExamGenerator := do
  verifyOptions options
  Except.ok { exam := exam, options := mergeOptions options }

/-- Roster loading from `src/ExamUtils.ts` (`ExamUtils.loadCSVRoster`). The
CSV parse itself is external I/O performed by Papa.parse; the embedding takes
the parsed rows as input and performs the per-row validation the source
applies before returning the roster. -/
def loadCSVRoster (students : List StudentInfo) : Except String (List StudentInfo) := do
  students.forM (fun s => do
    assert (s.uniqname != "") ("Student uniqname may not be empty. Double check your roster file.")
    assert (s.name != "") ("Student name may not be empty. Double check your roster file."))
  Except.ok students

/-! Exam specification serialization, from `src/ExamUtils.ts`. The file I/O
and JSON text layer (`readFileSync`, `writeFileSync`, JSON lexing) are
external; the embedding works on parsed JSON trees and models the source's
contribution: the `JSON.stringify` replacer of `saveExamSpecification`, which
turns every `RegExp` value into a tagged object, and the `JSON.parse` reviver
of `loadExamSpecification`, which turns every tagged object back into a
`RegExp`. The reviver runs bottom-up, exactly as `JSON.parse` applies it. -/

/-- An assertion completes exactly when its condition holds. -/
theorem assert_ok_iff (b : Bool) (msg : String) :
    assert b msg = Except.ok () ↔ b = true := by
  cases b <;> simp [assert]

/-- An assertion fails exactly when its condition is false, and then carries
its own message. -/
theorem assert_error_iff (b : Bool) (msg m : String) :
    assert b msg = Except.error m ↔ (b = false ∧ m = msg) := by
  cases b <;> simp [assert]
  exact eq_comm

/-- Inversion of a successful bind. -/
theorem bind_ok_inv {α β : Type} {e : Except String α} {f : α → Except String β} {v : β}
    (h : (e >>= f) = Except.ok v) : ∃ a, e = Except.ok a ∧ f a = Except.ok v := by
  cases e with
  | error m => exact absurd h (by simp [Bind.bind, Except.bind])
  | ok a => exact ⟨a, rfl, h⟩

/-- Inversion of a failing bind. -/
theorem bind_error_inv {α β : Type} {e : Except String α} {f : α → Except String β} {m : String}
    (h : (e >>= f) = Except.error m) :
    e = Except.error m ∨ ∃ a, e = Except.ok a ∧ f a = Except.error m := by
  cases e with
  | error m' =>
    left
    have : m' = m := by simpa [Bind.bind, Except.bind] using h
    rw [this]
  | ok a => exact Or.inr ⟨a, rfl, h⟩

/-- Every element of a successful `mapM` image comes from a successful
application to some element of the source list. -/
theorem mapM_ok_mem_inv {α β : Type} (f : α → Except String β) :
    ∀ (l : List α) (ys : List β), l.mapM f = Except.ok ys →
      ∀ y ∈ ys, ∃ x ∈ l, f x = Except.ok y := by
  intro l
  induction l with
  | nil =>
    intro ys h y hy
    rw [List.mapM_nil] at h
    have hys : ys = [] := by simpa [pure, Except.pure] using h.symm
    subst hys
    simp at hy
  | cons a t ih =>
    intro ys h y hy
    rw [List.mapM_cons] at h
    obtain ⟨b, hb, h2⟩ := bind_ok_inv h
    obtain ⟨bs, hbs, h3⟩ := bind_ok_inv h2
    have hys : ys = b :: bs := by simpa [pure, Except.pure] using h3.symm
    subst hys
    rcases List.mem_cons.mp hy with hy1 | hy2
    · exact ⟨a, List.mem_cons_self a t, hy1 ▸ hb⟩
    · obtain ⟨x, hx, hfx⟩ := ih bs hbs y hy2
      exact ⟨x, List.mem_cons_of_mem a hx, hfx⟩

/-- A failing `mapM` fails on some element of the source list. -/
theorem mapM_error_inv {α β : Type} (f : α → Except String β) :
    ∀ (l : List α) (m : String), l.mapM f = Except.error m →
      ∃ x ∈ l, f x = Except.error m := by
  intro l
  induction l with
  | nil =>
    intro m h
    rw [List.mapM_nil] at h
    exact absurd h (by simp [pure, Except.pure])
  | cons a t ih =>
    intro m h
    rw [List.mapM_cons] at h
    rcases bind_error_inv h with h1 | ⟨b, hb, h2⟩
    · exact ⟨a, List.mem_cons_self a t, h1⟩
    · rcases bind_error_inv h2 with h3 | ⟨bs, hbs, h4⟩
      · obtain ⟨x, hx, hfx⟩ := ih m h3
        exact ⟨x, List.mem_cons_of_mem a hx, hfx⟩
      · exact absurd h4 (by simp [pure, Except.pure])

/-- An invariant preserved by every successful step of a `foldlM` holds of
the final state. -/
theorem foldlM_ok_invariant {σ α : Type} (f : σ → α → Except String σ) (P : σ → Prop)
    (hstep : ∀ s s' x, P s → f s x = Except.ok s' → P s') :
    ∀ (l : List α) (s s' : σ), P s → l.foldlM f s = Except.ok s' → P s' := by
  intro l
  induction l with
  | nil =>
    intro s s' hP h
    rw [List.foldlM_nil] at h
    have hs : s = s' := by simpa [pure, Except.pure] using h
    exact hs ▸ hP
  | cons a t ih =>
    intro s s' hP h
    rw [List.foldlM_cons] at h
    obtain ⟨s1, hs1, h2⟩ := bind_ok_inv h
    exact ih s1 s' (hstep s s1 a hP hs1) h2

/-! Claim C6: uuidv5 namespace configuration errors. -/

/-- C6: if `uuid_strategy` is `"uuidv5"`, constructing an `ExamGenerator`
without a `uuidv5_namespace` or with one shorter than 16 characters fails
with a configuration error at construction time (the constructor runs
`verifyOptions` before anything else, so no student has been processed);
conversely a namespace of length at least 16 passes the check and the
constructor succeeds. -/
theorem uuidv5_namespace_config_check (exam : Exam) (options : OptionsInput)
    (h5 : options.uuid_strategy = some UUIDStrategy.uuidv5) :
    ((∀ ns, options.uuidv5_namespace = some ns → ns.length < 16) →
      ∃ m, mkExamGenerator exam options = Except.error m) ∧
    (∀ ns, options.uuidv5_namespace = some ns → 16 ≤ ns.length →
      ∃ g, mkExamGenerator exam options = Except.ok g) := by
  constructor
  · intro hshort
    cases hns : options.uuidv5_namespace with
    | none =>
      refine ⟨uuidv5NamespaceMissingMsg, ?_⟩
      simp [mkExamGenerator, verifyOptions, assert, strTruthy, h5, hns,
        Bind.bind, Except.bind]
    | some s =>
      by_cases hse : s = ""
      · refine ⟨uuidv5NamespaceMissingMsg, ?_⟩
        simp [mkExamGenerator, verifyOptions, assert, strTruthy, h5, hns, hse,
          Bind.bind, Except.bind]
      · refine ⟨uuidv5NamespaceShortMsg, ?_⟩
        have hlen : ¬ (16 ≤ s.length) := Nat.not_le.mpr (hshort s hns)
        simp [mkExamGenerator, verifyOptions, assert, strTruthy, h5, hns, hse, hlen,
          Bind.bind, Except.bind]
  · intro ns hns hlen
    have hne : ns ≠ "" := by
      intro he
      rw [he] at hlen
      simp at hlen
    refine ⟨{ exam := exam, options := mergeOptions options }, ?_⟩
    simp [mkExamGenerator, verifyOptions, assert, strTruthy, h5, hns, hne, hlen,
      Bind.bind, Except.bind]

def wExam : Exam := { exam_id := "exam1", sections := [] }

def wOptsGood : OptionsInput :=
  { uuid_strategy := some UUIDStrategy.uuidv5, uuidv5_namespace := some "0123456789abcdef" }

def wOptsShort : OptionsInput :=
  { uuid_strategy := some UUIDStrategy.uuidv5, uuidv5_namespace := some "short" }

/-- Witness for C6: a 5-character namespace is rejected, a 16-character
namespace is accepted. -/
theorem uuidv5_namespace_config_check_witness :
    (∃ m, mkExamGenerator wExam wOptsShort = Except.error m) ∧
    (∃ g, mkExamGenerator wExam wOptsGood = Except.ok g) :=
  ⟨(uuidv5_namespace_config_check wExam wOptsShort rfl).1
      (by intro ns h; injection h with h'; subst h'; decide),
   (uuidv5_namespace_config_check wExam wOptsGood rfl).2 "0123456789abcdef" rfl (by decide)⟩

/-! Claim C9: roster validation. -/

/-- Unfolding lemma for `List.forM` on a cons cell in the `Except` monad. -/
theorem list_forM_cons {α : Type} (f : α → Except String Unit) (a : α) (t : List α) :
    List.forM (a :: t) f = (f a >>= fun _ => List.forM t f) := rfl

/-- A `forM` over `Except` fails when some element fails. -/
theorem forM_error_of_mem {α : Type} (f : α → Except String Unit) :
    ∀ (l : List α) (x : α), x ∈ l → (∃ m, f x = Except.error m) →
      ∃ m, List.forM l f = Except.error m := by
  intro l
  induction l with
  | nil => intro x hx _; simp at hx
  | cons a t ih =>
    intro x hx hex
    rcases List.mem_cons.mp hx with he | hm
    · subst he
      obtain ⟨m, hm⟩ := hex
      cases hfa : f x with
      | error m2 => exact ⟨m2, by rw [list_forM_cons, hfa]; rfl⟩
      | ok u => rw [hfa] at hm; exact absurd hm (by simp)
    · cases hfa : f a with
      | error m2 => exact ⟨m2, by rw [list_forM_cons, hfa]; rfl⟩
      | ok u =>
        obtain ⟨m, hm⟩ := ih x hm hex
        refine ⟨m, ?_⟩
        rw [list_forM_cons, hfa]
        exact hm

/-- A `forM` over `Except` completes when every element completes. -/
theorem forM_ok_of_all {α : Type} (f : α → Except String Unit) :
    ∀ l : List α, (∀ x ∈ l, f x = Except.ok ()) → List.forM l f = Except.ok () := by
  intro l
  induction l with
  | nil => intro _; rfl
  | cons a t ih =>
    intro h
    rw [list_forM_cons, h a (List.mem_cons_self a t)]
    exact ih (fun x hx => h x (List.mem_cons_of_mem a hx))

/-- C9: `loadCSVRoster` rejects malformed roster rows: if any parsed row has
an empty uniqname or an empty name, loading fails with an error; a roster in
which every row has a non-empty uniqname and name is returned in full. -/
theorem loadCSVRoster_rejects_malformed (students : List StudentInfo) :
    ((∃ s ∈ students, s.uniqname = "" ∨ s.name = "") →
      ∃ m, loadCSVRoster students = Except.error m) ∧
    ((∀ s ∈ students, s.uniqname ≠ "" ∧ s.name ≠ "") →
      loadCSVRoster students = Except.ok students) := by
  constructor
  · rintro ⟨s0, hs0, hbad⟩
    have hx : ∃ m, (do
        assert (s0.uniqname != "") ("Student uniqname may not be empty. Double check your roster file.")
        assert (s0.name != "") ("Student name may not be empty. Double check your roster file.") :
        Except String Unit) = Except.error m := by
      by_cases h1 : s0.uniqname = ""
      · exact ⟨"Student uniqname may not be empty. Double check your roster file.",
          by simp [assert, h1, Bind.bind, Except.bind]⟩
      · have h2 : s0.name = "" := by tauto
        exact ⟨"Student name may not be empty. Double check your roster file.",
          by simp [assert, h1, h2, Bind.bind, Except.bind]⟩
    obtain ⟨m, hm⟩ := forM_error_of_mem (fun s => do
        assert (s.uniqname != "") ("Student uniqname may not be empty. Double check your roster file.")
        assert (s.name != "") ("Student name may not be empty. Double check your roster file."))
      students s0 hs0 hx
    refine ⟨m, ?_⟩
    rw [loadCSVRoster, hm]
    rfl
  · intro hgood
    have hall : List.forM students (fun s => do
        assert (s.uniqname != "") ("Student uniqname may not be empty. Double check your roster file.")
        assert (s.name != "") ("Student name may not be empty. Double check your roster file.")) =
        Except.ok () :=
      forM_ok_of_all _ students (fun s hs => by
        simp [assert, (hgood s hs).1, (hgood s hs).2, Bind.bind, Except.bind])
    rw [loadCSVRoster, hall]
    rfl

def wRosterGood : List StudentInfo :=
  [{ uniqname := "alice", name := "Alice A" }, { uniqname := "bob", name := "Bob B" }]

def wRosterBad : List StudentInfo := [{ uniqname := "", name := "Nameless" }]

/-- Witness for C9: a roster with an empty uniqname is rejected; a well-formed
two-student roster is returned in full. -/
theorem loadCSVRoster_rejects_malformed_witness :
    (∃ m, loadCSVRoster wRosterBad = Except.error m) ∧
    loadCSVRoster wRosterGood = Except.ok wRosterGood :=
  ⟨(loadCSVRoster_rejects_malformed wRosterBad).1
      ⟨{ uniqname := "", name := "Nameless" }, by simp [wRosterBad], Or.inl rfl⟩,
   (loadCSVRoster_rejects_malformed wRosterGood).2 (by decide)⟩

/-! Inversion lemmas for the generation pipeline. -/

/-- Every assigned question produced by a successful
`createRandomizedQuestion` call carries the chosen question and a uuid built
from id `exam_id + "-q-" + question_id`. -/
theorem createRandomizedQuestion_ok_mem {options : ExamGeneratorOptions} {exam : Exam}
    {q : Question} {student : StudentInfo} {i p : Nat} {sk : ExamComponentSkin}
    {lst : List AssignedQuestion}
    (h : createRandomizedQuestion options exam q student i p sk = Except.ok lst) :
    ∀ aq ∈ lst, aq.question = q ∧ aq.sectionIndex = i ∧ aq.partIndex = p ∧
      aq.student = student ∧
      createStudentUuid options student (exam.exam_id ++ "-q-" ++ q.question_id) =
        Except.ok aq.uuid := by
  simp only [createRandomizedQuestion] at h
  obtain ⟨skins, hskins, h⟩ := bind_ok_inv h
  obtain ⟨u2, hassert, h⟩ := bind_ok_inv h
  intro aq haq
  obtain ⟨sk2, hsk2, hf⟩ := mapM_ok_mem_inv _ _ _ h aq haq
  obtain ⟨u, hu, hok⟩ := bind_ok_inv hf
  have heq : (({ uuid := u, exam := exam, student := student, question := q,
                 skin := sk2, sectionIndex := i, partIndex := p,
                 submission := "" } : AssignedQuestion)) = aq := by
    simpa using hok
  subst heq
  exact ⟨rfl, rfl, rfl, rfl, hu⟩

/-- Every assigned section produced by a successful
`createRandomizedSection` call carries the chosen section, the given index, a
uuid built from id `exam_id + "-s-" + section_id`, and questions whose uuids
use id `exam_id + "-q-" + question_id`. -/
theorem createRandomizedSection_ok_mem {options : ExamGeneratorOptions} {exam : Exam}
    {sec : Section} {student : StudentInfo} {i : Nat} {lst : List AssignedSection}
    (h : createRandomizedSection options exam sec student i = Except.ok lst) :
    ∀ as ∈ lst, as.section_ = sec ∧ as.sectionIndex = i ∧
      createStudentUuid options student (exam.exam_id ++ "-s-" ++ sec.section_id) =
        Except.ok as.uuid ∧
      ∀ aq ∈ as.assignedQuestions, aq.student = student ∧
        createStudentUuid options student (exam.exam_id ++ "-q-" ++ aq.question.question_id) =
          Except.ok aq.uuid := by
  simp only [createRandomizedSection] at h
  obtain ⟨skins, hskins, h⟩ := bind_ok_inv h
  obtain ⟨u2, hassert, h⟩ := bind_ok_inv h
  intro as has
  obtain ⟨sk2, hsk2, hf⟩ := mapM_ok_mem_inv _ _ _ h as has
  obtain ⟨u, hu, hf⟩ := bind_ok_inv hf
  obtain ⟨chosenLists, hch, hf⟩ := bind_ok_inv hf
  obtain ⟨aqLists, haqs, hok⟩ := bind_ok_inv hf
  have heq : (({ uuid := u, section_ := sec, sectionIndex := i, skin := sk2,
                 assignedQuestions := aqLists.flatten } : AssignedSection)) = as := by
    simpa using hok
  subst heq
  refine ⟨rfl, rfl, hu, ?_⟩
  intro aq haq
  obtain ⟨aql, haql, haqmem⟩ := List.mem_flatten.mp haq
  obtain ⟨pr, hpr, hcrq⟩ := mapM_ok_mem_inv _ _ _ haqs aql haql
  obtain ⟨hq, _, _, hstu, huuid⟩ := createRandomizedQuestion_ok_mem hcrq aq haqmem
  rw [← hq] at huuid
  exact ⟨hstu, huuid⟩

/-- Inversion of a successful `createRandomizedExam` call: the exam uuid
comes from `createStudentUuid` on the exam id, the assigned sections are the
flattened outputs of `createRandomizedSection` over the chosen sections, and
`checkExam` accepted the new exam. -/
theorem createRandomizedExam_ok_inv {options : ExamGeneratorOptions} {exam : Exam}
    {student : StudentInfo} {st : GenState} {ae : AssignedExam} {st' : GenState}
    (h : createRandomizedExam options exam student st = Except.ok (ae, st')) :
    createStudentUuid options student exam.exam_id = Except.ok ae.uuid ∧
    ae.exam = exam ∧ ae.student = student ∧
    ae.allow_duplicates = options.allow_duplicates ∧
    (∃ chosen : List Section, ∃ asLists : List (List AssignedSection),
      chosen.enum.mapM (fun pr => createRandomizedSection options exam pr.2 student pr.1) =
        Except.ok asLists ∧
      ae.assignedSections = asLists.flatten) ∧
    checkExam st ae = Except.ok st' := by
  simp only [createRandomizedExam] at h
  obtain ⟨u, hu, h⟩ := bind_ok_inv h
  obtain ⟨chosenLists, hch, h⟩ := bind_ok_inv h
  obtain ⟨asLists, hsec, h⟩ := bind_ok_inv h
  obtain ⟨st1, hst1, hok⟩ := bind_ok_inv h
  have heq : ((({ uuid := u, exam := exam, student := student,
                  assignedSections := asLists.flatten,
                  allow_duplicates := options.allow_duplicates } : AssignedExam), st1)) = (ae, st') := by
    simpa using hok
  have hae : (({ uuid := u, exam := exam, student := student,
                 assignedSections := asLists.flatten,
                 allow_duplicates := options.allow_duplicates } : AssignedExam)) = ae :=
    congrArg Prod.fst heq
  have hst : st1 = st' := congrArg Prod.snd heq
  subst hae
  subst hst
  exact ⟨hu, rfl, rfl, rfl, ⟨chosenLists.flatten, asLists, hsec, rfl⟩, hst1⟩

/-! Claim C3: determinism and shape of uuids under the plain strategy. -/

/-- C3: under `uuid_strategy` `"plain"`, `createStudentUuid` is the pure
concatenation `uniqname + "-" + id` — the embedding is a function, so the
same `(uniqname, id)` pair always yields this same string, and regenerating
for the same roster and exam reproduces identical uuids — and consequently
every assigned exam's uuid has the form `"<uniqname>-<exam_id>"`. -/
theorem createStudentUuid_plain_deterministic (options : ExamGeneratorOptions)
    (student : StudentInfo) (id : String) (exam : Exam) (st : GenState)
    (hplain : options.uuid_strategy = UUIDStrategy.plain) :
    createStudentUuid options student id = Except.ok (student.uniqname ++ "-" ++ id) ∧
    (∀ ae st', createRandomizedExam options exam student st = Except.ok (ae, st') →
      ae.uuid = student.uniqname ++ "-" ++ exam.exam_id) := by
  have hcsu : ∀ i : String,
      createStudentUuid options student i = Except.ok (student.uniqname ++ "-" ++ i) := by
    intro i
    simp [createStudentUuid, hplain]
  refine ⟨hcsu id, ?_⟩
  intro ae st' h
  have hinv := (createRandomizedExam_ok_inv h).1
  rw [hcsu exam.exam_id] at hinv
  exact (Except.ok.inj hinv).symm

def wOptsPlain : ExamGeneratorOptions :=
  { frontend_js_path := "js/frontend.js", frontend_media_dir := "media",
    uuid_strategy := UUIDStrategy.plain, uuidv5_namespace := none,
    choose_all := false, allow_duplicates := false, consistent_randomization := false }

def wSkin : ExamComponentSkin := { skin_id := "default", replacements := [] }

def wQ1 : Question :=
  { question_id := "q1", pointsPossible := 3, spec := 1, skin := SkinOrChooser.leaf wSkin }

def wQ2 : Question :=
  { question_id := "q2", pointsPossible := 5, spec := 2, skin := SkinOrChooser.leaf wSkin }

def wSec1 : Section :=
  { section_id := "sec1", spec := 10, skin := SkinOrChooser.leaf wSkin,
    questions := [Chooser.fixed wQ1, Chooser.fixed wQ2] }

def wExam1 : Exam := { exam_id := "eecs280f21", sections := [Chooser.fixed wSec1] }

def wStudentA : StudentInfo := { uniqname := "alice", name := "Alice A" }

/-- Witness for C3: the plain uuid of alice for id `"examX"`, and the uuid of
her generated assigned exam. -/
theorem createStudentUuid_plain_deterministic_witness :
    createStudentUuid wOptsPlain wStudentA "examX" =
      Except.ok (wStudentA.uniqname ++ "-" ++ "examX") ∧
    ∃ ae st', createRandomizedExam wOptsPlain wExam1 wStudentA {} = Except.ok (ae, st') ∧
      ae.uuid = wStudentA.uniqname ++ "-" ++ wExam1.exam_id := by
  refine ⟨(createStudentUuid_plain_deterministic wOptsPlain wStudentA "examX" wExam1 {} rfl).1, ?_⟩
  obtain ⟨ae, st', h⟩ :
      ∃ ae st', createRandomizedExam wOptsPlain wExam1 wStudentA {} = Except.ok (ae, st') :=
    ⟨_, _, rfl⟩
  exact ⟨ae, st', h,
    (createStudentUuid_plain_deterministic wOptsPlain wStudentA "examX" wExam1 {} rfl).2 ae st' h⟩

/-! Claim C7: uuidv5 stability and distinctness. -/

def wOptsV5 : ExamGeneratorOptions :=
  { frontend_js_path := "js/frontend.js", frontend_media_dir := "media",
    uuid_strategy := UUIDStrategy.uuidv5, uuidv5_namespace := some "0123456789abcdef",
    choose_all := false, allow_duplicates := false, consistent_randomization := false }

set_option maxRecDepth 100000 in
/-- C7: under `uuid_strategy` `"uuidv5"` with the fixed namespace
`"0123456789abcdef"`, `createStudentUuid` for `(uniqname "abc123", id
"examX")` evaluates to one fixed uuid string — the embedding is a pure
function of `(uniqname, id)`, so every invocation returns this same value —
and the uuid produced for id `"examY"` is a different string. -/
theorem createStudentUuid_uuidv5_stable_distinct :
    createStudentUuid wOptsV5 { uniqname := "abc123", name := "Abc" } "examX" =
      Except.ok "1a8c663a-0302-5952-ade4-c446799d35d9" ∧
    createStudentUuid wOptsV5 { uniqname := "abc123", name := "Abc" } "examY" =
      Except.ok "674d9199-e63d-52dd-874f-85a7a952843d" ∧
    ("1a8c663a-0302-5952-ade4-c446799d35d9" : String) ≠
      "674d9199-e63d-52dd-874f-85a7a952843d" :=
  ⟨by rfl, by rfl, by decide⟩

/-! Claim C5: the serialized-regex tagging convention. The claimed tag
`"__serialized_regex"` is not the one the source uses. -/

/-- Inversion of a successful `checkExam` call: the checker never touches the
list of assigned exams, and the stats maps are the results of folding the
exam's sections and questions through the per-node steps. -/
theorem checkExam_ok_inv {st : GenState} {ae : AssignedExam} {st' : GenState}
    (h : checkExam st ae = Except.ok st') :
    st'.assignedExams = st.assignedExams ∧
    st'.assignedExamsByUniqname = st.assignedExamsByUniqname ∧
    (ae.assignedSections.map (fun s => s.section_)).foldlM checkSectionStatsStep
      st.sectionStatsMap = Except.ok st'.sectionStatsMap ∧
    (ae.assignedSections.flatMap (fun s => s.assignedQuestions.map (fun q => q.question))).foldlM
      checkQuestionStatsStep st.questionStatsMap = Except.ok st'.questionStatsMap := by
  simp only [checkExam] at h
  obtain ⟨sstats, hs, h⟩ := bind_ok_inv h
  obtain ⟨qstats, hq, hok⟩ := bind_ok_inv h
  have heq := Except.ok.inj hok
  subst heq
  exact ⟨rfl, rfl, hs, hq⟩

/-- Inversion of a successful `assignExam` call: the newly created exam is
appended to the assigned list, and its `pointsPossible` passed the equality
assertion against the first element of the list after the push. -/
theorem assignExam_ok_inv {options : ExamGeneratorOptions} {exam : Exam} {st : GenState}
    {student : StudentInfo} {st' : GenState}
    (h : assignExam options exam st student = Except.ok st') :
    ∃ ae st1, createRandomizedExam options exam student st = Except.ok (ae, st1) ∧
      st1.assignedExams = st.assignedExams ∧
      st'.assignedExams = st.assignedExams ++ [ae] ∧
      st'.sectionStatsMap = st1.sectionStatsMap ∧
      st'.questionStatsMap = st1.questionStatsMap ∧
      ae.pointsPossible = (match st.assignedExams ++ [ae] with
        | [] => ae
        | f :: _ => f).pointsPossible := by
  simp only [assignExam] at h
  obtain ⟨pr, hpr, h⟩ := bind_ok_inv h
  obtain ⟨ae, st1⟩ := pr
  obtain ⟨u, hassert, hok⟩ := bind_ok_inv h
  have hexams : st1.assignedExams = st.assignedExams :=
    (checkExam_ok_inv (createRandomizedExam_ok_inv hpr).2.2.2.2.2).1
  rw [hexams] at hassert hok
  have hpts : ae.pointsPossible = (match st.assignedExams ++ [ae] with
      | [] => ae
      | f :: _ => f).pointsPossible := by
    have := (assert_ok_iff _ _).mp (by cases u; exact hassert)
    simpa using this
  have heq := Except.ok.inj hok
  subst heq
  exact ⟨ae, st1, hpr, hexams, rfl, rfl, rfl, hpts⟩

/-- C1: in a successful `assignExams` run every assigned exam's
`pointsPossible` equals the first assigned exam's. Moreover, whenever some
already-assigned exam exists and a later student's freshly generated exam has
a different total, `assignExam` aborts with an error instead of keeping the
inconsistent exam set. -/
theorem assignExams_pointsPossible_consistent (options : ExamGeneratorOptions) (exam : Exam)
    (students : List StudentInfo) (st : GenState)
    (h : assignExams options exam students = Except.ok st) :
    (∀ ae ∈ st.assignedExams, ∀ ae0, st.assignedExams.head? = some ae0 →
      ae.pointsPossible = ae0.pointsPossible) ∧
    (∀ s : GenState, ∀ student : StudentInfo, ∀ ae st1,
      createRandomizedExam options exam student s = Except.ok (ae, st1) →
      ae.pointsPossible ≠ (s.assignedExams.headD ae).pointsPossible →
      ∃ m, assignExam options exam s student = Except.error m) := by
  constructor
  · exact foldlM_ok_invariant (assignExam options exam)
      (fun s => ∀ ae ∈ s.assignedExams, ∀ ae0, s.assignedExams.head? = some ae0 →
        ae.pointsPossible = ae0.pointsPossible)
      (by
        intro s s' x hP hstep
        obtain ⟨ae, st1, _, _, happ, _, _, hpts⟩ := assignExam_ok_inv hstep
        rw [happ]
        intro ae' hmem ae0 hhead
        cases hcase : s.assignedExams with
        | nil =>
          rw [hcase] at hmem hhead
          simp at hmem hhead
          rw [hmem, ← hhead]
        | cons f rest =>
          rw [hcase] at hmem hhead hpts
          simp at hhead
          subst hhead
          rcases List.mem_append.mp hmem with hold | hnew
          · exact hP ae' (hcase ▸ hold) f (by rw [hcase]; rfl)
          · simp at hnew
            subst hnew
            simpa using hpts)
      students {} st (by intro ae hmem; simp at hmem) h
  · intro s student ae st1 hcre hne
    refine ⟨pointsMismatchMsg, ?_⟩
    have hexams : st1.assignedExams = s.assignedExams :=
      (checkExam_ok_inv (createRandomizedExam_ok_inv hcre).2.2.2.2.2).1
    have hcond : (ae.pointsPossible == (match st1.assignedExams ++ [ae] with
        | [] => ae
        | f :: _ => f).pointsPossible) = false := by
      rw [hexams]
      cases hcase : s.assignedExams with
      | nil =>
        rw [hcase] at hne
        simp at hne
      | cons f rest =>
        rw [hcase] at hne
        simp only [List.headD] at hne
        simp [hne]
    simp only [assignExam, hcre, Bind.bind, Except.bind]
    rw [(assert_error_iff _ _ _).mpr ⟨hcond, rfl⟩]

def wStudentB : StudentInfo := { uniqname := "bob", name := "Bob B" }

def wQBig : Question :=
  { question_id := "qbig", pointsPossible := 100, spec := 99, skin := SkinOrChooser.leaf wSkin }

def wAQBig : AssignedQuestion :=
  { uuid := "uuid-q-big", exam := wExam1, student := { uniqname := "prev", name := "Prev P" },
    question := wQBig, skin := wSkin, sectionIndex := 0, partIndex := 0, submission := "" }

def wASBig : AssignedSection :=
  { uuid := "uuid-s-big", section_ := wSec1, sectionIndex := 0, skin := wSkin,
    assignedQuestions := [wAQBig] }

def wAEBig : AssignedExam :=
  { uuid := "uuid-big", exam := wExam1, student := { uniqname := "prev", name := "Prev P" },
    assignedSections := [wASBig], allow_duplicates := false }

def wStateBig : GenState :=
  { assignedExams := [wAEBig], assignedExamsByUniqname := [("prev", wAEBig)],
    sectionsMap := [], questionsMap := [], sectionStatsMap := [], questionStatsMap := [] }

/-- Witness for C1: a two-student run of the fixture exam succeeds with equal
point totals, and assigning a fresh 8-point exam against a state whose first
assigned exam is worth 100 points aborts with an error. -/
theorem assignExams_pointsPossible_consistent_witness :
    ∃ st, assignExams wOptsPlain wExam1 [wStudentA, wStudentB] = Except.ok st ∧
      ((∀ ae ∈ st.assignedExams, ∀ ae0, st.assignedExams.head? = some ae0 →
        ae.pointsPossible = ae0.pointsPossible) ∧
       (∃ m, assignExam wOptsPlain wExam1 wStateBig wStudentA = Except.error m)) := by
  obtain ⟨st, h⟩ :
      ∃ st, assignExams wOptsPlain wExam1 [wStudentA, wStudentB] = Except.ok st := ⟨_, rfl⟩
  refine ⟨st, h, (assignExams_pointsPossible_consistent wOptsPlain wExam1 _ st h).1, ?_⟩
  refine (assignExams_pointsPossible_consistent wOptsPlain wExam1 _ st h).2
    wStateBig wStudentA _ _ rfl ?_
  decide

/-! Claim C2: the consistency checker forbids specification drift. -/

/-- The stats table has a representative for this section's id whose
specification identity agrees with the section's. -/
def sectionStatsAgrees (m : List (String × SectionStats)) (s : Section) : Prop :=
  ∃ e, mapGet m s.section_id = some e ∧ e.section_.spec = s.spec

/-- The stats table has a representative for this question's id whose
specification identity agrees with the question's. -/
def questionStatsAgrees (m : List (String × QuestionStats)) (q : Question) : Prop :=
  ∃ e, mapGet m q.question_id = some e ∧ e.question.spec = q.spec

/-- Setting a key makes lookup of that key return the new value. -/
theorem mapGet_mapSet_self {α : Type} (m : List (String × α)) (k : String) (v : α) :
    mapGet (mapSet m k v) k = some v := by
  simp [mapGet, mapSet]

/-- Setting a key leaves lookups of other keys unchanged. -/
theorem mapGet_mapSet_ne {α : Type} (m : List (String × α)) (k k' : String) (v : α)
    (h : k' ≠ k) : mapGet (mapSet m k v) k' = mapGet m k' := by
  simp only [mapGet, mapSet]
  rw [List.find?_cons_of_neg]
  simp [Ne.symm h]

/-- One checker step keeps every previously agreeing section agreeing. -/
theorem checkSectionStatsStep_preserves {m m' : List (String × SectionStats)}
    {s0 s : Section} (h : checkSectionStatsStep m s0 = Except.ok m')
    (ha : sectionStatsAgrees m s) : sectionStatsAgrees m' s := by
  obtain ⟨e, hget, hspec⟩ := ha
  simp only [checkSectionStatsStep] at h
  by_cases hid : s.section_id = s0.section_id
  · rw [← hid] at h
    rw [hget] at h
    obtain ⟨u, hassert, hok⟩ := bind_ok_inv h
    have hm' := Except.ok.inj hok
    subst hm'
    exact ⟨{ e with n := e.n + 1 }, by rw [hid]; rw [← hid]; exact mapGet_mapSet_self .., hspec⟩
  · cases hget0 : mapGet m s0.section_id with
    | some e0 =>
      rw [hget0] at h
      obtain ⟨u, hassert, hok⟩ := bind_ok_inv h
      have hm' := Except.ok.inj hok
      subst hm'
      exact ⟨e, by rw [mapGet_mapSet_ne _ _ _ _ hid]; exact hget, hspec⟩
    | none =>
      rw [hget0] at h
      have hm' := Except.ok.inj h
      subst hm'
      exact ⟨e, by rw [mapGet_mapSet_ne _ _ _ _ hid]; exact hget, hspec⟩

/-- One checker step makes the processed section agree with the table: either
it is inserted as the representative, or the assertion checked it against the
existing representative. -/
theorem checkSectionStatsStep_establishes {m m' : List (String × SectionStats)}
    {s0 : Section} (h : checkSectionStatsStep m s0 = Except.ok m') :
    sectionStatsAgrees m' s0 := by
  simp only [checkSectionStatsStep] at h
  cases hget0 : mapGet m s0.section_id with
  | some e0 =>
    rw [hget0] at h
    obtain ⟨u, hassert, hok⟩ := bind_ok_inv h
    have hspec : s0.spec = e0.section_.spec := by
      have := (assert_ok_iff _ _).mp (by cases u; exact hassert)
      simpa using this
    have hm' := Except.ok.inj hok
    subst hm'
    exact ⟨{ e0 with n := e0.n + 1 }, mapGet_mapSet_self .., hspec.symm⟩
  | none =>
    rw [hget0] at h
    have hm' := Except.ok.inj h
    subst hm'
    exact ⟨{ section_ := s0, n := 1 }, mapGet_mapSet_self .., rfl⟩

/-- Folding the checker over a batch of sections preserves previous
agreements and establishes agreement for every section in the batch. -/
theorem checkSectionStats_fold :
    ∀ (sections : List Section) (m m' : List (String × SectionStats)),
      sections.foldlM checkSectionStatsStep m = Except.ok m' →
      (∀ s, sectionStatsAgrees m s → sectionStatsAgrees m' s) ∧
      (∀ s ∈ sections, sectionStatsAgrees m' s) := by
  intro sections
  induction sections with
  | nil =>
    intro m m' h
    rw [List.foldlM_nil] at h
    have hm : m = m' := by simpa [pure, Except.pure] using h
    subst hm
    exact ⟨fun s hs => hs, by intro s hs; simp at hs⟩
  | cons a t ih =>
    intro m m' h
    rw [List.foldlM_cons] at h
    obtain ⟨m1, hm1, h2⟩ := bind_ok_inv h
    obtain ⟨hpres, hmem⟩ := ih m1 m' h2
    refine ⟨fun s hs => hpres s (checkSectionStatsStep_preserves hm1 hs), ?_⟩
    intro s hs
    rcases List.mem_cons.mp hs with he | hm
    · subst he
      exact hpres s (checkSectionStatsStep_establishes hm1)
    · exact hmem s hm

/-- Question analogue of `checkSectionStatsStep_preserves`. -/
theorem checkQuestionStatsStep_preserves {m m' : List (String × QuestionStats)}
    {q0 q : Question} (h : checkQuestionStatsStep m q0 = Except.ok m')
    (ha : questionStatsAgrees m q) : questionStatsAgrees m' q := by
  obtain ⟨e, hget, hspec⟩ := ha
  simp only [checkQuestionStatsStep] at h
  by_cases hid : q.question_id = q0.question_id
  · rw [← hid] at h
    rw [hget] at h
    obtain ⟨u, hassert, hok⟩ := bind_ok_inv h
    have hm' := Except.ok.inj hok
    subst hm'
    exact ⟨{ e with n := e.n + 1 }, by rw [hid]; rw [← hid]; exact mapGet_mapSet_self .., hspec⟩
  · cases hget0 : mapGet m q0.question_id with
    | some e0 =>
      rw [hget0] at h
      obtain ⟨u, hassert, hok⟩ := bind_ok_inv h
      have hm' := Except.ok.inj hok
      subst hm'
      exact ⟨e, by rw [mapGet_mapSet_ne _ _ _ _ hid]; exact hget, hspec⟩
    | none =>
      rw [hget0] at h
      have hm' := Except.ok.inj h
      subst hm'
      exact ⟨e, by rw [mapGet_mapSet_ne _ _ _ _ hid]; exact hget, hspec⟩

/-- Question analogue of `checkSectionStatsStep_establishes`. -/
theorem checkQuestionStatsStep_establishes {m m' : List (String × QuestionStats)}
    {q0 : Question} (h : checkQuestionStatsStep m q0 = Except.ok m') :
    questionStatsAgrees m' q0 := by
  simp only [checkQuestionStatsStep] at h
  cases hget0 : mapGet m q0.question_id with
  | some e0 =>
    rw [hget0] at h
    obtain ⟨u, hassert, hok⟩ := bind_ok_inv h
    have hspec : q0.spec = e0.question.spec := by
      have := (assert_ok_iff _ _).mp (by cases u; exact hassert)
      simpa using this
    have hm' := Except.ok.inj hok
    subst hm'
    exact ⟨{ e0 with n := e0.n + 1 }, mapGet_mapSet_self .., hspec.symm⟩
  | none =>
    rw [hget0] at h
    have hm' := Except.ok.inj h
    subst hm'
    exact ⟨{ question := q0, n := 1 }, mapGet_mapSet_self .., rfl⟩

/-- Question analogue of `checkSectionStats_fold`. -/
theorem checkQuestionStats_fold :
    ∀ (questions : List Question) (m m' : List (String × QuestionStats)),
      questions.foldlM checkQuestionStatsStep m = Except.ok m' →
      (∀ q, questionStatsAgrees m q → questionStatsAgrees m' q) ∧
      (∀ q ∈ questions, questionStatsAgrees m' q) := by
  intro questions
  induction questions with
  | nil =>
    intro m m' h
    rw [List.foldlM_nil] at h
    have hm : m = m' := by simpa [pure, Except.pure] using h
    subst hm
    exact ⟨fun q hq => hq, by intro q hq; simp at hq⟩
  | cons a t ih =>
    intro m m' h
    rw [List.foldlM_cons] at h
    obtain ⟨m1, hm1, h2⟩ := bind_ok_inv h
    obtain ⟨hpres, hmem⟩ := ih m1 m' h2
    refine ⟨fun q hq => hpres q (checkQuestionStatsStep_preserves hm1 hq), ?_⟩
    intro q hq
    rcases List.mem_cons.mp hq with he | hm
    · subst he
      exact hpres q (checkQuestionStatsStep_establishes hm1)
    · exact hmem q hm

/-- The cross-run invariant maintained by the consistency checker: every
assigned section and question agrees with its id's representative in the
stats tables. -/
def specConsistencyInv (st : GenState) : Prop :=
  (∀ ae ∈ st.assignedExams, ∀ as ∈ ae.assignedSections,
    sectionStatsAgrees st.sectionStatsMap as.section_) ∧
  (∀ ae ∈ st.assignedExams, ∀ as ∈ ae.assignedSections, ∀ aq ∈ as.assignedQuestions,
    questionStatsAgrees st.questionStatsMap aq.question)

/-- A successful `assignExam` preserves the checker invariant, extending it
to the newly assigned exam. -/
theorem assignExam_preserves_specConsistencyInv {options : ExamGeneratorOptions}
    {exam : Exam} {st : GenState} {student : StudentInfo} {st' : GenState}
    (hP : specConsistencyInv st) (h : assignExam options exam st student = Except.ok st') :
    specConsistencyInv st' := by
  obtain ⟨ae, st1, hcre, hexams1, happ, hsec, hq, _⟩ := assignExam_ok_inv h
  obtain ⟨_, _, hsfold, hqfold⟩ :=
    checkExam_ok_inv (createRandomizedExam_ok_inv hcre).2.2.2.2.2
  obtain ⟨hspres, hsmem⟩ := checkSectionStats_fold _ _ _ hsfold
  obtain ⟨hqpres, hqmem⟩ := checkQuestionStats_fold _ _ _ hqfold
  constructor
  · intro ae' hae' as has
    rw [hsec]
    rcases List.mem_append.mp (happ ▸ hae') with hold | hnew
    · exact hspres _ (hP.1 ae' hold as has)
    · have he : ae' = ae := by simpa using hnew
      subst he
      exact hsmem _ (List.mem_map_of_mem (fun s => s.section_) has)
  · intro ae' hae' as has aq haq
    rw [hq]
    rcases List.mem_append.mp (happ ▸ hae') with hold | hnew
    · exact hqpres _ (hP.2 ae' hold as has aq haq)
    · have he : ae' = ae := by simpa using hnew
      subst he
      exact hqmem _ (List.mem_flatMap.mpr
        ⟨as, has, List.mem_map_of_mem (fun q => q.question) haq⟩)

/-- C2: in a successful `assignExams` run, any two assigned sections sharing
a `section_id`, and any two assigned questions sharing a `question_id`,
reference the identical specification object — `checkExam` aborts the run
with a drift error otherwise, so no inconsistent set is produced. -/
theorem assignExams_no_spec_drift (options : ExamGeneratorOptions) (exam : Exam)
    (students : List StudentInfo) (st : GenState)
    (h : assignExams options exam students = Except.ok st) :
    (∀ ae1 ∈ st.assignedExams, ∀ ae2 ∈ st.assignedExams,
      ∀ s1 ∈ ae1.assignedSections, ∀ s2 ∈ ae2.assignedSections,
        s1.section_.section_id = s2.section_.section_id →
        s1.section_.spec = s2.section_.spec) ∧
    (∀ ae1 ∈ st.assignedExams, ∀ ae2 ∈ st.assignedExams,
      ∀ s1 ∈ ae1.assignedSections, ∀ s2 ∈ ae2.assignedSections,
        ∀ q1 ∈ s1.assignedQuestions, ∀ q2 ∈ s2.assignedQuestions,
          q1.question.question_id = q2.question.question_id →
          q1.question.spec = q2.question.spec) := by
  have hInv : specConsistencyInv st := foldlM_ok_invariant _ specConsistencyInv
    (fun s s' x hP hstep => assignExam_preserves_specConsistencyInv hP hstep) students {} st
    (by constructor <;> intro ae hmem <;> simp at hmem) h
  constructor
  · intro ae1 h1 ae2 h2 s1 hs1 s2 hs2 hid
    obtain ⟨e1, hg1, he1⟩ := hInv.1 ae1 h1 s1 hs1
    obtain ⟨e2, hg2, he2⟩ := hInv.1 ae2 h2 s2 hs2
    rw [hid] at hg1
    have he := Option.some.inj (hg1.symm.trans hg2)
    rw [← he1, ← he2, he]
  · intro ae1 h1 ae2 h2 s1 hs1 s2 hs2 q1 hq1 q2 hq2 hid
    obtain ⟨e1, hg1, he1⟩ := hInv.2 ae1 h1 s1 hs1 q1 hq1
    obtain ⟨e2, hg2, he2⟩ := hInv.2 ae2 h2 s2 hs2 q2 hq2
    rw [hid] at hg1
    have he := Option.some.inj (hg1.symm.trans hg2)
    rw [← he1, ← he2, he]

def wRoster2 : List StudentInfo := [wStudentA, wStudentB]

/-- Witness for C2: a two-student run of the fixture exam succeeds, and the
no-drift conclusion holds of its assigned set. -/
theorem assignExams_no_spec_drift_witness :
    ∃ st, assignExams wOptsPlain wExam1 wRoster2 = Except.ok st ∧
      (∀ ae1 ∈ st.assignedExams, ∀ ae2 ∈ st.assignedExams,
        ∀ s1 ∈ ae1.assignedSections, ∀ s2 ∈ ae2.assignedSections,
          s1.section_.section_id = s2.section_.section_id →
          s1.section_.spec = s2.section_.spec) := by
  obtain ⟨st, h⟩ : ∃ st, assignExams wOptsPlain wExam1 wRoster2 = Except.ok st := ⟨_, rfl⟩
  exact ⟨st, h, (assignExams_no_spec_drift wOptsPlain wExam1 wRoster2 st h).1⟩

/-! Claim C4: the `consistent_randomization` option. -/

/-- Mapping the error case through `Except.map` is the identity on errors. -/
theorem except_map_eq_error {α β : Type} {f : α → β} {e : Except String α} {m : String} :
    e.map f = Except.error m ↔ e = Except.error m := by
  cases e <;> simp [Except.map]

/-- Inversion of `Except.map` landing on a success. -/
theorem except_map_eq_ok {α β : Type} {f : α → β} {e : Except String α} {b : β} :
    e.map f = Except.ok b ↔ ∃ a, e = Except.ok a ∧ f a = b := by
  cases e <;> simp [Except.map]

/-- Two element-wise computations that agree up to a projection produce
`mapM` results that agree up to the mapped projection. -/
theorem mapM_proj {α β γ : Type} (pj : β → γ) (f g : α → Except String β) :
    ∀ l : List α, (∀ x ∈ l, (f x).map pj = (g x).map pj) →
      (l.mapM f).map (List.map pj) = (l.mapM g).map (List.map pj) := by
  intro l
  induction l with
  | nil => intro _; rfl
  | cons a t ih =>
    intro h
    rw [List.mapM_cons, List.mapM_cons]
    have ha := h a (List.mem_cons_self a t)
    have iht := ih (fun x hx => h x (List.mem_cons_of_mem a hx))
    cases hfa : f a with
    | error m =>
      rw [hfa] at ha
      have hga : g a = Except.error m := except_map_eq_error.mp ha.symm
      rw [hga]
      rfl
    | ok b1 =>
      rw [hfa] at ha
      obtain ⟨b2, hga, hpj⟩ := except_map_eq_ok.mp ha.symm
      rw [hga]
      cases hft : t.mapM f with
      | error m =>
        rw [hft] at iht
        have hgt : t.mapM g = Except.error m := except_map_eq_error.mp iht.symm
        rw [hgt]
        rfl
      | ok bs1 =>
        rw [hft] at iht
        obtain ⟨bs2, hgt, hmap⟩ := except_map_eq_ok.mp iht.symm
        rw [hgt]
        show Except.ok ((b1 :: bs1).map pj) = Except.ok ((b2 :: bs2).map pj)
        simp only [List.map_cons]
        rw [hpj, hmap]

/-- When the strategy is `"uuidv5"` with a falsy namespace, `createStudentUuid`
throws its internal assertion, independently of the student and id. -/
theorem createStudentUuid_error_char (options : ExamGeneratorOptions)
    (student : StudentInfo) (id : String)
    (h : options.uuid_strategy = UUIDStrategy.uuidv5)
    (h2 : strTruthy options.uuidv5_namespace = false) :
    createStudentUuid options student id = Except.error "Assertion failed." := by
  simp [createStudentUuid, h, h2, assert, Bind.bind, Except.bind]

/-- In every other configuration `createStudentUuid` succeeds. -/
theorem createStudentUuid_ok_char (options : ExamGeneratorOptions)
    (student : StudentInfo) (id : String)
    (h : ¬ (options.uuid_strategy = UUIDStrategy.uuidv5 ∧
        strTruthy options.uuidv5_namespace = false)) :
    ∃ u, createStudentUuid options student id = Except.ok u := by
  cases hstrat : options.uuid_strategy with
  | plain =>
    exact ⟨student.uniqname ++ "-" ++ id, by simp [createStudentUuid, hstrat]⟩
  | uuidv4 => exact ⟨uuidv4Value, by simp [createStudentUuid, hstrat]⟩
  | uuidv5 =>
    have htr : strTruthy options.uuidv5_namespace = true := by
      cases htr2 : strTruthy options.uuidv5_namespace with
      | true => rfl
      | false => exact absurd ⟨hstrat, htr2⟩ h
    exact ⟨uuidv5 (student.uniqname ++ "-" ++ id) (options.uuidv5_namespace.getD ""),
      by simp [createStudentUuid, hstrat, htr, assert, Bind.bind, Except.bind]⟩

/-- The part of an assigned section that records which content was selected:
its specification section and the list of selected questions. -/
def AssignedSection.selection (as : AssignedSection) : Section × List Question :=
  (as.section_, as.assignedQuestions.map (fun aq => aq.question))

/-- The question skins chosen for a question depend on the student only
through `makeSeed`. -/
theorem questionSkinsOf_seed {options : ExamGeneratorOptions} {exam : Exam} {q : Question}
    {s1 s2 : StudentInfo} {sk : ExamComponentSkin}
    (hseed : makeSeed options s1 = makeSeed options s2) :
    questionSkinsOf options exam q s1 sk = questionSkinsOf options exam q s2 sk := by
  simp only [questionSkinsOf, hseed]

/-- The section skins chosen for a section depend on the student only
through `makeSeed`. -/
theorem sectionSkinsOf_seed {options : ExamGeneratorOptions} {exam : Exam} {sec : Section}
    {s1 s2 : StudentInfo} (hseed : makeSeed options s1 = makeSeed options s2) :
    sectionSkinsOf options exam sec s1 = sectionSkinsOf options exam sec s2 := by
  simp only [sectionSkinsOf, hseed]

/-- Up to uuids and the student reference, `createRandomizedQuestion`
produces the same questions for two students with the same seed. -/
theorem createRandomizedQuestion_proj {options : ExamGeneratorOptions} {exam : Exam}
    {q : Question} {s1 s2 : StudentInfo} {i p : Nat} {sk : ExamComponentSkin}
    (hseed : makeSeed options s1 = makeSeed options s2) :
    (createRandomizedQuestion options exam q s1 i p sk).map
        (List.map (fun aq => aq.question)) =
      (createRandomizedQuestion options exam q s2 i p sk).map
        (List.map (fun aq => aq.question)) := by
  simp only [createRandomizedQuestion]
  rw [questionSkinsOf_seed hseed]
  cases hsk : questionSkinsOf options exam q s2 sk with
  | error m => rfl
  | ok skins =>
    simp only [Bind.bind, Except.bind]
    cases hass : assert (options.allow_duplicates || skins.length == 1) questionSkinAssertMsg with
    | error m => rfl
    | ok u =>
      cases u
      apply mapM_proj
      intro sk2 _
      by_cases hbad : options.uuid_strategy = UUIDStrategy.uuidv5 ∧
          strTruthy options.uuidv5_namespace = false
      · rw [createStudentUuid_error_char options s1 _ hbad.1 hbad.2,
          createStudentUuid_error_char options s2 _ hbad.1 hbad.2]
      · obtain ⟨u1, hu1⟩ := createStudentUuid_ok_char options s1
          (exam.exam_id ++ "-q-" ++ q.question_id) hbad
        obtain ⟨u2, hu2⟩ := createStudentUuid_ok_char options s2
          (exam.exam_id ++ "-q-" ++ q.question_id) hbad
        rw [hu1, hu2]
        rfl

/-- The inner part of the per-skin section builder — question choosing and
question assignment — agrees across two same-seed students up to the
selection projection, for any shared chooser outcome `QC` and any uuids. -/
theorem section_inner_proj {options : ExamGeneratorOptions} {exam : Exam}
    {s1 s2 : StudentInfo} {i : Nat} {sec : Section}
    (hseed : makeSeed options s1 = makeSeed options s2)
    (QC : Except String (List (List Question))) (u1 u2 : String)
    (sk2 : ExamComponentSkin) :
    (Except.map AssignedSection.selection (do
       let chosenLists ← QC
       let aqLists ← chosenLists.flatten.enum.mapM (fun pr =>
         createRandomizedQuestion options exam pr.2 s1 i pr.1 sk2)
       Except.ok { uuid := u1, section_ := sec, sectionIndex := i, skin := sk2,
                   assignedQuestions := aqLists.flatten })) =
    (Except.map AssignedSection.selection (do
       let chosenLists ← QC
       let aqLists ← chosenLists.flatten.enum.mapM (fun pr =>
         createRandomizedQuestion options exam pr.2 s2 i pr.1 sk2)
       Except.ok { uuid := u2, section_ := sec, sectionIndex := i, skin := sk2,
                   assignedQuestions := aqLists.flatten })) := by
  cases QC with
  | error m => rfl
  | ok chosen =>
    simp only [Bind.bind, Except.bind]
    have hmm := mapM_proj (List.map (fun aq => aq.question))
      (fun pr : Nat × Question => createRandomizedQuestion options exam pr.2 s1 i pr.1 sk2)
      (fun pr : Nat × Question => createRandomizedQuestion options exam pr.2 s2 i pr.1 sk2)
      chosen.flatten.enum
      (fun pr _ => createRandomizedQuestion_proj hseed)
    cases haq1 : chosen.flatten.enum.mapM (fun pr =>
        createRandomizedQuestion options exam pr.2 s1 i pr.1 sk2) with
    | error m =>
      rw [haq1] at hmm
      have haq2 := except_map_eq_error.mp hmm.symm
      rw [haq2]
    | ok aql1 =>
      rw [haq1] at hmm
      obtain ⟨aql2, haq2, hproj⟩ := except_map_eq_ok.mp hmm.symm
      rw [haq2]
      show Except.ok (AssignedSection.selection _) = Except.ok (AssignedSection.selection _)
      simp only [AssignedSection.selection, List.map_flatten]
      rw [← hproj]

/-- Up to uuids and the student reference, `createRandomizedSection` selects
the same sections and questions for two students with the same seed. -/
theorem createRandomizedSection_proj {options : ExamGeneratorOptions} {exam : Exam}
    {sec : Section} {s1 s2 : StudentInfo} {i : Nat}
    (hseed : makeSeed options s1 = makeSeed options s2) :
    (createRandomizedSection options exam sec s1 i).map
        (List.map AssignedSection.selection) =
      (createRandomizedSection options exam sec s2 i).map
        (List.map AssignedSection.selection) := by
  simp only [createRandomizedSection]
  rw [sectionSkinsOf_seed hseed, hseed]
  cases hsk : sectionSkinsOf options exam sec s2 with
  | error m => rfl
  | ok skins =>
    simp only [Bind.bind, Except.bind]
    cases hass : assert (options.allow_duplicates || skins.length == 1) sectionSkinAssertMsg with
    | error m => rfl
    | ok u =>
      cases u
      apply mapM_proj
      intro sk2 _
      simp only [chooseQuestions]
      by_cases hbad : options.uuid_strategy = UUIDStrategy.uuidv5 ∧
          strTruthy options.uuidv5_namespace = false
      · rw [createStudentUuid_error_char options s1 _ hbad.1 hbad.2,
          createStudentUuid_error_char options s2 _ hbad.1 hbad.2]
      · obtain ⟨u1, hu1⟩ := createStudentUuid_ok_char options s1
          (exam.exam_id ++ "-s-" ++ sec.section_id) hbad
        obtain ⟨u2, hu2⟩ := createStudentUuid_ok_char options s2
          (exam.exam_id ++ "-s-" ++ sec.section_id) hbad
        rw [hu1, hu2]
        exact section_inner_proj hseed _ u1 u2 sk2

/-- C4: when `consistent_randomization` is set, `makeSeed` returns the
constant seed `"common"` for every student instead of a student-derived seed,
and consequently any two students' assigned exams select the same sections
and the same questions (their trees agree up to uuids and the student
reference; in this embedding the skin choosers also draw from the common
seed, so whether skins vary across students rests only on chooser internals
outside the sources). -/
theorem consistent_randomization_common_selection (options : ExamGeneratorOptions)
    (exam : Exam) (s1 s2 : StudentInfo) (stA stB : GenState) (ae1 ae2 : AssignedExam)
    (st1 st2 : GenState)
    (hc : options.consistent_randomization = true)
    (h1 : createRandomizedExam options exam s1 stA = Except.ok (ae1, st1))
    (h2 : createRandomizedExam options exam s2 stB = Except.ok (ae2, st2)) :
    makeSeed options s1 = "common" ∧ makeSeed options s2 = "common" ∧
    ae1.assignedSections.map AssignedSection.selection =
      ae2.assignedSections.map AssignedSection.selection ∧
    ae1.assignedSections.map (fun as => as.section_) =
      ae2.assignedSections.map (fun as => as.section_) ∧
    ae1.assignedSections.map (fun as => as.assignedQuestions.map (fun aq => aq.question)) =
      ae2.assignedSections.map (fun as => as.assignedQuestions.map (fun aq => aq.question)) := by
  have hseed : makeSeed options s1 = makeSeed options s2 := by simp [makeSeed, hc]
  simp only [createRandomizedExam] at h1 h2
  obtain ⟨u1, hu1, h1⟩ := bind_ok_inv h1
  obtain ⟨cls1, hch1, h1⟩ := bind_ok_inv h1
  obtain ⟨asl1, hsec1, h1⟩ := bind_ok_inv h1
  obtain ⟨stx1, hst1, hok1⟩ := bind_ok_inv h1
  obtain ⟨u2, hu2, h2⟩ := bind_ok_inv h2
  obtain ⟨cls2, hch2, h2⟩ := bind_ok_inv h2
  obtain ⟨asl2, hsec2, h2⟩ := bind_ok_inv h2
  obtain ⟨stx2, hst2, hok2⟩ := bind_ok_inv h2
  have hcls : cls1 = cls2 := by
    simp only [chooseSections] at hch1 hch2
    rw [hseed] at hch1
    exact Except.ok.inj (hch1.symm.trans hch2)
  subst hcls
  have hproj := mapM_proj (List.map AssignedSection.selection)
    (fun pr : Nat × Section => createRandomizedSection options exam pr.2 s1 pr.1)
    (fun pr : Nat × Section => createRandomizedSection options exam pr.2 s2 pr.1)
    cls1.flatten.enum
    (fun pr _ => createRandomizedSection_proj hseed)
  rw [hsec1, hsec2] at hproj
  have hmaps : asl1.map (List.map AssignedSection.selection) =
      asl2.map (List.map AssignedSection.selection) := by
    simpa [Except.map] using hproj
  have hae1 : ae1.assignedSections = asl1.flatten :=
    congrArg AssignedExam.assignedSections (congrArg Prod.fst (Except.ok.inj hok1)).symm
  have hae2 : ae2.assignedSections = asl2.flatten :=
    congrArg AssignedExam.assignedSections (congrArg Prod.fst (Except.ok.inj hok2)).symm
  have hsel : ae1.assignedSections.map AssignedSection.selection =
      ae2.assignedSections.map AssignedSection.selection := by
    rw [hae1, hae2, List.map_flatten, List.map_flatten, hmaps]
  refine ⟨by simp [makeSeed, hc], by simp [makeSeed, hc], hsel, ?_, ?_⟩
  · have := congrArg (List.map Prod.fst) hsel
    simpa [List.map_map, Function.comp, AssignedSection.selection] using this
  · have := congrArg (List.map Prod.snd) hsel
    simpa [List.map_map, Function.comp, AssignedSection.selection] using this

def wOptsCommon : ExamGeneratorOptions :=
  { wOptsPlain with consistent_randomization := true }

/-- Witness for C4: with `consistent_randomization` set, alice and bob
receive the same section and question selection on the fixture exam. -/
theorem consistent_randomization_common_selection_witness :
    ∃ ae1 st1 ae2 st2,
      createRandomizedExam wOptsCommon wExam1 wStudentA {} = Except.ok (ae1, st1) ∧
      createRandomizedExam wOptsCommon wExam1 wStudentB {} = Except.ok (ae2, st2) ∧
      makeSeed wOptsCommon wStudentA = "common" ∧
      ae1.assignedSections.map (fun as => as.section_) =
        ae2.assignedSections.map (fun as => as.section_) := by
  obtain ⟨ae1, st1, h1⟩ :
      ∃ ae1 st1, createRandomizedExam wOptsCommon wExam1 wStudentA {} =
        Except.ok (ae1, st1) := ⟨_, _, rfl⟩
  obtain ⟨ae2, st2, h2⟩ :
      ∃ ae2 st2, createRandomizedExam wOptsCommon wExam1 wStudentB {} =
        Except.ok (ae2, st2) := ⟨_, _, rfl⟩
  have hmain := consistent_randomization_common_selection wOptsCommon wExam1
    wStudentA wStudentB {} {} ae1 ae2 st1 st2 rfl h1 h2
  exact ⟨ae1, st1, ae2, st2, h1, h2, hmain.1, hmain.2.2.2.1⟩

/-! Claim C8: the skin-multiplicity assertions. -/

/-- The only error a chooser's `choose` can raise is the selection-range
error. -/
theorem chooser_choose_error {α : Type} {c : Chooser α} {r : Randomizer} {m : String}
    (h : c.choose r = Except.error m) : m = selectionRangeMsg := by
  cases c with
  | fixed item => simp [Chooser.choose] at h
  | chooseAll pool => simp [Chooser.choose] at h
  | chooseN pool n =>
    cases r with
    | chooseAll => simp [Chooser.choose, chooseFrom] at h
    | seeded seed tag =>
      simp only [Chooser.choose, chooseFrom] at h
      by_cases hle : n ≤ pool.length
      · simp [hle] at h
      · simp [hle] at h
        exact h.symm
  | weighted pool n =>
    cases r with
    | chooseAll => simp [Chooser.choose, chooseFrom] at h
    | seeded seed tag =>
      simp only [Chooser.choose, chooseFrom, List.length_map] at h
      by_cases hle : n ≤ pool.length
      · simp [hle] at h
      · simp [hle] at h
        exact h.symm

/-- The only error `createStudentUuid` can raise is its namespace
assertion. -/
theorem createStudentUuid_error_msg {options : ExamGeneratorOptions}
    {student : StudentInfo} {id m : String}
    (h : createStudentUuid options student id = Except.error m) :
    m = "Assertion failed." := by
  cases hstrat : options.uuid_strategy with
  | plain => simp [createStudentUuid, hstrat] at h
  | uuidv4 => simp [createStudentUuid, hstrat] at h
  | uuidv5 =>
    simp only [createStudentUuid, hstrat] at h
    cases htr : strTruthy options.uuidv5_namespace with
    | true => simp [htr, assert, Bind.bind, Except.bind] at h
    | false =>
      simp [htr, assert, Bind.bind, Except.bind] at h
      exact h.symm

/-- The error messages `questionSkinsOf` can produce. -/
theorem questionSkinsOf_error_msg {options : ExamGeneratorOptions} {exam : Exam}
    {q : Question} {student : StudentInfo} {sk : ExamComponentSkin} {m : String}
    (h : questionSkinsOf options exam q student sk = Except.error m) :
    m = selectionRangeMsg := by
  simp only [questionSkinsOf] at h
  cases hq : q.skin with
  | leaf sk0 => rw [hq] at h; simp [Except.map] at h
  | chooser c =>
    rw [hq] at h
    have := except_map_eq_error.mp h
    exact chooser_choose_error this

/-- The error messages `createRandomizedQuestion` can produce: its own
multiplicity assertion, a chooser selection-range error, or the uuid
namespace assertion. -/
theorem createRandomizedQuestion_error_msg {options : ExamGeneratorOptions} {exam : Exam}
    {q : Question} {student : StudentInfo} {i p : Nat} {sk : ExamComponentSkin} {m : String}
    (h : createRandomizedQuestion options exam q student i p sk = Except.error m) :
    m = questionSkinAssertMsg ∨ m = selectionRangeMsg ∨ m = "Assertion failed." := by
  simp only [createRandomizedQuestion] at h
  rcases bind_error_inv h with h1 | ⟨skins, hskins, h2⟩
  · exact Or.inr (Or.inl (questionSkinsOf_error_msg h1))
  · rcases bind_error_inv h2 with h3 | ⟨u, hu, h4⟩
    · exact Or.inl ((assert_error_iff _ _ _).mp h3).2
    · obtain ⟨sk2, _, hf⟩ := mapM_error_inv _ _ _ h4
      rcases bind_error_inv hf with h5 | ⟨u2, _, h6⟩
      · exact Or.inr (Or.inr (createStudentUuid_error_msg h5))
      · exact absurd h6 (by simp)

/-- C8: with `allow_duplicates` false, the multiplicity assertions in
`createRandomizedSection` and `createRandomizedQuestion` fire exactly when
the corresponding skin chooser yields a list whose length is not 1: the run
errors with the assertion's message precisely in that case, and when every
chooser yields exactly one skin — or `allow_duplicates` is true — these
assertions cannot fire. -/
theorem skin_multiplicity_assert_characterization (options : ExamGeneratorOptions)
    (exam : Exam) (sec : Section) (q : Question) (student : StudentInfo) (i p : Nat)
    (sectionSkin : ExamComponentSkin) (skins qskins : List ExamComponentSkin)
    (hs : sectionSkinsOf options exam sec student = Except.ok skins)
    (hq : questionSkinsOf options exam q student sectionSkin = Except.ok qskins) :
    (createRandomizedSection options exam sec student i = Except.error sectionSkinAssertMsg ↔
      options.allow_duplicates = false ∧ skins.length ≠ 1) ∧
    (createRandomizedQuestion options exam q student i p sectionSkin =
        Except.error questionSkinAssertMsg ↔
      options.allow_duplicates = false ∧ qskins.length ≠ 1) := by
  constructor
  · constructor
    · intro h
      simp only [createRandomizedSection] at h
      rw [hs] at h
      simp only [Bind.bind, Except.bind] at h
      rcases bind_error_inv h with h1 | ⟨u, hu, h2⟩
      · obtain ⟨hcond, _⟩ := (assert_error_iff _ _ _).mp h1
        simp only [Bool.or_eq_false_iff] at hcond
        exact ⟨hcond.1, by simpa using hcond.2⟩
      · exfalso
        obtain ⟨sk2, _, hf⟩ := mapM_error_inv _ _ _ h2
        rcases bind_error_inv hf with h3 | ⟨u1, _, h4⟩
        · have := createStudentUuid_error_msg h3
          exact absurd this (by decide)
        · rcases bind_error_inv h4 with h5 | ⟨cls, _, h6⟩
          · obtain ⟨ch, _, hch⟩ := mapM_error_inv _ _ _ h5
            have := chooser_choose_error (c := ch) (by simpa [chooseQuestions] using hch)
            exact absurd this (by decide)
          · rcases bind_error_inv h6 with h7 | ⟨aql, _, h8⟩
            · obtain ⟨pr, _, hpr⟩ := mapM_error_inv _ _ _ h7
              rcases createRandomizedQuestion_error_msg hpr with hm | hm | hm <;>
                exact absurd hm (by decide)
            · exact absurd h8 (by simp)
    · rintro ⟨hdup, hlen⟩
      have hcond : (options.allow_duplicates || (skins.length == 1)) = false := by
        rw [hdup]
        simpa using hlen
      simp only [createRandomizedSection, hs, Bind.bind, Except.bind]
      rw [(assert_error_iff _ _ _).mpr ⟨hcond, rfl⟩]
  · constructor
    · intro h
      simp only [createRandomizedQuestion] at h
      rw [hq] at h
      simp only [Bind.bind, Except.bind] at h
      rcases bind_error_inv h with h1 | ⟨u, hu, h2⟩
      · obtain ⟨hcond, _⟩ := (assert_error_iff _ _ _).mp h1
        simp only [Bool.or_eq_false_iff] at hcond
        exact ⟨hcond.1, by simpa using hcond.2⟩
      · exfalso
        obtain ⟨sk2, _, hf⟩ := mapM_error_inv _ _ _ h2
        rcases bind_error_inv hf with h3 | ⟨u1, _, h4⟩
        · have := createStudentUuid_error_msg h3
          exact absurd this (by decide)
        · exact absurd h4 (by simp)
    · rintro ⟨hdup, hlen⟩
      have hcond : (options.allow_duplicates || (qskins.length == 1)) = false := by
        rw [hdup]
        simpa using hlen
      simp only [createRandomizedQuestion, hq, Bind.bind, Except.bind]
      rw [(assert_error_iff _ _ _).mpr ⟨hcond, rfl⟩]

def wSkin2 : ExamComponentSkin := { skin_id := "variant-b", replacements := [("x", "y")] }

def wSecMulti : Section :=
  { section_id := "secMulti", spec := 11,
    skin := SkinOrChooser.chooser (Chooser.chooseAll [wSkin, wSkin2]),
    questions := [Chooser.fixed wQ1] }

/-- Witness for C8: with `allow_duplicates` false, a section whose skin
chooser yields two skins trips the assertion, while the single-skin section
and question do not. -/
theorem skin_multiplicity_assert_characterization_witness :
    createRandomizedSection wOptsPlain wExam1 wSecMulti wStudentA 0 =
      Except.error sectionSkinAssertMsg ∧
    ¬ (createRandomizedSection wOptsPlain wExam1 wSec1 wStudentA 0 =
      Except.error sectionSkinAssertMsg) ∧
    ¬ (createRandomizedQuestion wOptsPlain wExam1 wQ1 wStudentA 0 0 wSkin =
      Except.error questionSkinAssertMsg) := by
  have h1 := skin_multiplicity_assert_characterization wOptsPlain wExam1 wSecMulti wQ1
    wStudentA 0 0 wSkin [wSkin, wSkin2] [createCompositeSkin wSkin wSkin] rfl rfl
  have h2 := skin_multiplicity_assert_characterization wOptsPlain wExam1 wSec1 wQ1
    wStudentA 0 0 wSkin [wSkin] [createCompositeSkin wSkin wSkin] rfl rfl
  exact ⟨h1.1.mpr ⟨rfl, by decide⟩,
    fun hc => (h2.1.mp hc).2 rfl,
    fun hc => (h2.2.mp hc).2 rfl⟩

/-! Claim C10: pairwise distinctness of plain-strategy uuids. -/

/-- String concatenation is left-cancellative. -/
theorem string_append_left_cancel {a b c : String} (h : a ++ b = a ++ c) : b = c := by
  apply String.ext
  have hd := congrArg String.data h
  simp only [String.data_append] at hd
  exact List.append_cancel_left hd

/-- The exam uuid is never a section uuid: the latter is strictly longer. -/
theorem plain_exam_ne_section (u e x : String) :
    u ++ "-" ++ e ≠ u ++ "-" ++ (e ++ "-s-" ++ x) := by
  intro h
  have hlen := congrArg String.length h
  have h3 : ("-s-" : String).length = 3 := rfl
  simp only [String.length_append, h3] at hlen
  omega

/-- The exam uuid is never a question uuid. -/
theorem plain_exam_ne_question (u e x : String) :
    u ++ "-" ++ e ≠ u ++ "-" ++ (e ++ "-q-" ++ x) := by
  intro h
  have hlen := congrArg String.length h
  have h3 : ("-q-" : String).length = 3 := rfl
  simp only [String.length_append, h3] at hlen
  omega

/-- A section uuid never equals a question uuid, whatever the ids: the two
infixes differ at the character after the exam id. -/
theorem plain_section_ne_question (u e x y : String) :
    u ++ "-" ++ (e ++ "-s-" ++ x) ≠ u ++ "-" ++ (e ++ "-q-" ++ y) := by
  intro h
  have h2 := string_append_left_cancel h
  have hd := congrArg String.data h2
  simp only [String.data_append, List.append_assoc] at hd
  have hd2 := List.append_cancel_left hd
  simp at hd2

/-- Two section uuids with the same student and exam agree only when the
section ids agree. -/
theorem plain_section_uuid_inj {u e x y : String}
    (h : u ++ "-" ++ (e ++ "-s-" ++ x) = u ++ "-" ++ (e ++ "-s-" ++ y)) : x = y :=
  string_append_left_cancel (string_append_left_cancel h)

/-- Two question uuids with the same student and exam agree only when the
question ids agree. -/
theorem plain_question_uuid_inj {u e x y : String}
    (h : u ++ "-" ++ (e ++ "-q-" ++ x) = u ++ "-" ++ (e ++ "-q-" ++ y)) : x = y :=
  string_append_left_cancel (string_append_left_cancel h)

/-- C10: under the plain strategy, within one student's assigned exam whose
sections have pairwise-distinct section ids and whose questions have
pairwise-distinct question ids, all generated uuids are pairwise distinct:
the exam uuid is `uniqname-examid`, each section uuid is
`uniqname-examid-s-sectionid`, each question uuid is
`uniqname-examid-q-questionid`, and the `-s-` versus `-q-` infixes keep a
section uuid from ever equalling a question uuid regardless of the ids. -/
theorem plain_uuid_pairwise_distinct (options : ExamGeneratorOptions) (exam : Exam)
    (student : StudentInfo) (st : GenState) (ae : AssignedExam) (st' : GenState)
    (hplain : options.uuid_strategy = UUIDStrategy.plain)
    (h : createRandomizedExam options exam student st = Except.ok (ae, st'))
    (hsids : (ae.assignedSections.map (fun as => as.section_.section_id)).Pairwise (· ≠ ·))
    (hqids : ((ae.assignedSections.flatMap (fun as => as.assignedQuestions)).map
      (fun aq => aq.question.question_id)).Pairwise (· ≠ ·)) :
    ae.uuid = student.uniqname ++ "-" ++ exam.exam_id ∧
    (∀ as ∈ ae.assignedSections,
      as.uuid = student.uniqname ++ "-" ++ (exam.exam_id ++ "-s-" ++ as.section_.section_id)) ∧
    (∀ aq ∈ ae.assignedSections.flatMap (fun as => as.assignedQuestions),
      aq.uuid = student.uniqname ++ "-" ++ (exam.exam_id ++ "-q-" ++ aq.question.question_id)) ∧
    (ae.uuid :: (ae.assignedSections.map (fun as => as.uuid) ++
      (ae.assignedSections.flatMap (fun as => as.assignedQuestions)).map
        (fun aq => aq.uuid))).Pairwise (· ≠ ·) := by
  have hcsu : ∀ i : String,
      createStudentUuid options student i = Except.ok (student.uniqname ++ "-" ++ i) := by
    intro i
    simp [createStudentUuid, hplain]
  obtain ⟨huuid, _, _, _, ⟨chosen, asLists, hmapm, hflat⟩, _⟩ := createRandomizedExam_ok_inv h
  have hexam : ae.uuid = student.uniqname ++ "-" ++ exam.exam_id := by
    rw [hcsu exam.exam_id] at huuid
    exact (Except.ok.inj huuid).symm
  have hsec : ∀ as ∈ ae.assignedSections,
      as.uuid = student.uniqname ++ "-" ++
        (exam.exam_id ++ "-s-" ++ as.section_.section_id) ∧
      ∀ aq ∈ as.assignedQuestions,
        aq.uuid = student.uniqname ++ "-" ++
          (exam.exam_id ++ "-q-" ++ aq.question.question_id) := by
    intro as has
    rw [hflat] at has
    obtain ⟨lst, hlst, hasmem⟩ := List.mem_flatten.mp has
    obtain ⟨pr, hpr, hcrs⟩ := mapM_ok_mem_inv _ _ _ hmapm lst hlst
    obtain ⟨hsec_eq, _, hsuuid, hqs⟩ := createRandomizedSection_ok_mem hcrs as hasmem
    constructor
    · rw [← hsec_eq] at hsuuid
      rw [hcsu] at hsuuid
      exact (Except.ok.inj hsuuid).symm
    · intro aq haq
      obtain ⟨_, hquuid⟩ := hqs aq haq
      rw [hcsu] at hquuid
      exact (Except.ok.inj hquuid).symm
  have hqall : ∀ aq ∈ ae.assignedSections.flatMap (fun as => as.assignedQuestions),
      aq.uuid = student.uniqname ++ "-" ++
        (exam.exam_id ++ "-q-" ++ aq.question.question_id) := by
    intro aq haq
    obtain ⟨as, has, haqmem⟩ := List.mem_flatMap.mp haq
    exact (hsec as has).2 aq haqmem
  have hSmap : ae.assignedSections.map (fun as => as.uuid) =
      ae.assignedSections.map (fun as => student.uniqname ++ "-" ++
        (exam.exam_id ++ "-s-" ++ as.section_.section_id)) :=
    List.map_congr_left (fun as has => (hsec as has).1)
  have hQmap : (ae.assignedSections.flatMap (fun as => as.assignedQuestions)).map
        (fun aq => aq.uuid) =
      (ae.assignedSections.flatMap (fun as => as.assignedQuestions)).map
        (fun aq => student.uniqname ++ "-" ++
          (exam.exam_id ++ "-q-" ++ aq.question.question_id)) :=
    List.map_congr_left (fun aq haq => hqall aq haq)
  refine ⟨hexam, fun as has => (hsec as has).1, hqall, ?_⟩
  rw [List.pairwise_cons]
  constructor
  · intro b hb
    rcases List.mem_append.mp hb with hbs | hbq
    · rw [hSmap] at hbs
      obtain ⟨as, has, hbe⟩ := List.mem_map.mp hbs
      rw [hexam, ← hbe]
      exact plain_exam_ne_section _ _ _
    · rw [hQmap] at hbq
      obtain ⟨aq, haq, hbe⟩ := List.mem_map.mp hbq
      rw [hexam, ← hbe]
      exact plain_exam_ne_question _ _ _
  rw [List.pairwise_append]
  refine ⟨?_, ?_, ?_⟩
  · rw [hSmap, List.pairwise_map]
    have hsp := hsids
    rw [List.pairwise_map] at hsp
    exact hsp.imp (fun hab hc => hab (plain_section_uuid_inj hc))
  · rw [hQmap, List.pairwise_map]
    have hqp := hqids
    rw [List.pairwise_map] at hqp
    exact hqp.imp (fun hab hc => hab (plain_question_uuid_inj hc))
  · intro a ha b hb
    rw [hSmap] at ha
    rw [hQmap] at hb
    obtain ⟨as, _, hae⟩ := List.mem_map.mp ha
    obtain ⟨aq, _, hbe⟩ := List.mem_map.mp hb
    rw [← hae, ← hbe]
    exact plain_section_ne_question _ _ _ _

def wQ3 : Question :=
  { question_id := "q3", pointsPossible := 8, spec := 3, skin := SkinOrChooser.leaf wSkin }

def wSec2 : Section :=
  { section_id := "sec2", spec := 20, skin := SkinOrChooser.leaf wSkin,
    questions := [Chooser.fixed wQ3] }

def wExam2 : Exam :=
  { exam_id := "final", sections := [Chooser.fixed wSec1, Chooser.fixed wSec2] }

/-- Witness for C10: alice's exam over two fixed sections with distinct ids
has pairwise-distinct uuids throughout. -/
theorem plain_uuid_pairwise_distinct_witness :
    ∃ ae st', createRandomizedExam wOptsPlain wExam2 wStudentA {} = Except.ok (ae, st') ∧
      (ae.uuid :: (ae.assignedSections.map (fun as => as.uuid) ++
        (ae.assignedSections.flatMap (fun as => as.assignedQuestions)).map
          (fun aq => aq.uuid))).Pairwise (· ≠ ·) := by
  refine ⟨_, _, rfl, ?_⟩
  refine (plain_uuid_pairwise_distinct wOptsPlain wExam2 wStudentA {} _ _ rfl rfl ?_ ?_).2.2.2
  · decide
  · decide

